import Mathlib

/-!
Shallow embedding of `src/03_vsync/src/main.c` of drm_doc (example 03_vsync).

The C program claims one CRTC per connected connector, allocates two dumb
framebuffers per connector, commits a mode and then repaints and flips the
two buffers from the page-flip event handler.

Conventions of the embedding:

* `uint32_t`, `uint8_t` values are natural numbers; every operation that can
  wrap in C is followed by an explicit `% 2 ^ 32` or `% 2 ^ 8`.
* Arrays are lists, an index loop is a recursion on the remaining count or a
  fold over `List.range`.
* The kernel is an explicit state (`Kernel`) plus the answers it gives to the
  calls of one run (`FbAnswers`, `ConnAnswers`).
* A pointer into `conn->fb[2]` is the index of the slot (`Fin 2`).
* The memory of the process is one function from the address to the byte
  (`Kernel.mem`); a store through `fb->data` changes the byte at the address
  `fb->data + offset`, whatever buffer that address belongs to.
* A process that is killed by a store through a pointer that is no mapping
  (`Kernel.fault`) runs no further statement.
-/

namespace DrmDoc

/-! Section: libdrm records (only the fields that `main.c` reads). -/

/-- Record `drmModeEncoder`: `possible_crtcs` is the bitmap of usable CRTC indices. -/
structure drmModeEncoder where
  encoder_id : Nat
  possible_crtcs : Nat

/-- Record `drmModeRes`: `count_crtcs` is `crtcs.length`. -/
structure drmModeRes where
  crtcs : List Nat

/-- Number of CRTCs of the device, `res->count_crtcs`. -/
def drmModeRes.count_crtcs (res : drmModeRes) : Nat := res.crtcs.length

/-- Record `drmModeModeInfo`: the two 16-bit sizes that `main` copies. -/
structure drmModeModeInfo where
  hdisplay : Nat
  vdisplay : Nat
deriving DecidableEq

/-- Record `drmModeConnector`: `connection` is true for `DRM_MODE_CONNECTED`,
`count_modes` is `modes.length`, `count_encoders` is `encoders.length`. -/
structure drmModeConnector where
  connector_id : Nat
  connection : Bool
  modes : List drmModeModeInfo
  encoders : List Nat

/-- Record `drmModeCrtc`, the configuration saved before the mode-set. -/
structure drmModeCrtc where
  crtc_id : Nat
  buffer_id : Nat
  x : Nat
  y : Nat
deriving DecidableEq

/-! Section: `find_crtc` (main.c lines 54-81). -/

/-- The C expression `uint32_t bit = 1 << i;`. For `i < 32` this is `2 ^ i`
(for `i = 31` the C shift overflows `int`; every compiler for the targets of
libdrm yields `0x80000000`). -/
def bitOf (i : Nat) : Nat := (1 <<< i) % 2 ^ 32

/-- The inner loop of `find_crtc`, lines 62-75: `n` iterations are left and the
loop variable is `i`. Returns the index of the CRTC at which the loop returns,
`none` when the loop runs to its end. -/
def scan_crtcs (possible_crtcs taken_crtcs : Nat) : Nat → Nat → Option Nat
  | 0, _ => none
  | n + 1, i =>
    if possible_crtcs &&& bitOf i = 0 then
      scan_crtcs possible_crtcs taken_crtcs n (i + 1)
    else if taken_crtcs &&& bitOf i ≠ 0 then
      scan_crtcs possible_crtcs taken_crtcs n (i + 1)
    else
      some i

/-- The parts of the environment that are functions: `drmModeGetEncoder` is the
answer of the kernel for an encoder id (`none` is the NULL result), and
`refresh_rate` is the helper declared in `util.h`, whose body is not part of
the example. -/
structure Env where
  drmModeGetEncoder : Nat → Option drmModeEncoder
  refresh_rate : drmModeModeInfo → Nat

/-- Function `find_crtc`, on the list `conn->encoders`. The result is the
returned CRTC id and the new value of `*taken_crtcs` (an or of two 32-bit
values, which cannot wrap). -/
def find_crtc (env : Env) (res : drmModeRes) : List Nat → Nat → Nat × Nat
  | [], taken_crtcs => (0, taken_crtcs)
  | e :: encoders, taken_crtcs =>
    match env.drmModeGetEncoder e with
    | none => find_crtc env res encoders taken_crtcs
    | some enc =>
      match scan_crtcs enc.possible_crtcs taken_crtcs res.count_crtcs 0 with
      | some i => (res.crtcs.getD i 0, taken_crtcs ||| bitOf i)
      | none => find_crtc env res encoders taken_crtcs

/-! Section: the kernel seen through the ioctls. -/

/-- Calls that the program makes and that the claims speak about. The output
of `printf` and `fprintf` is not part of the embedding. -/
inductive Call where
  | setCrtc (crtc_id fb_id connector_id : Nat)
  | pageFlip (crtc_id fb_id connector_id : Nat)
  | rmFB (fb_id : Nat)
  | destroyDumb (handle : Nat)
  | munmap (addr : Nat)
  | perror (msg : String)
deriving DecidableEq

/-- Test for a `drmModePageFlip` call. -/
def Call.isPageFlip : Call → Bool
  | .pageFlip _ _ _ => true
  | _ => false

/-- State of the device and of the process, as far as this program can change
it: the live dumb buffer handles, the registered framebuffer ids, the start
addresses of the live mappings, the calls made so far (oldest first), whether
the process has been killed by a `memset` through a pointer that is no live
mapping, and the bytes of the address space of the process. -/
structure Kernel where
  handles : List Nat
  fbs : List Nat
  maps : List Nat
  log : List Call
  fault : Bool
  mem : Nat → Nat

/-- Value `MAP_FAILED`, which is `(void *) -1` on a 64-bit target. -/
def MAP_FAILED : Nat := 2 ^ 64 - 1

/-- Call `drmModeRmFB(drm_fd, id)`. -/
def Kernel.rmFB (k : Kernel) (id : Nat) : Kernel :=
  { k with fbs := k.fbs.erase id, log := k.log ++ [Call.rmFB id] }

/-- Call `drmIoctl(drm_fd, DRM_IOCTL_MODE_DESTROY_DUMB, &destroy)`. -/
def Kernel.destroyDumb (k : Kernel) (handle : Nat) : Kernel :=
  { k with handles := k.handles.erase handle, log := k.log ++ [Call.destroyDumb handle] }

/-- Call `perror(msg)`. -/
def Kernel.perror (k : Kernel) (msg : String) : Kernel :=
  { k with log := k.log ++ [Call.perror msg] }

/-- Call `munmap(data, size)`. -/
def Kernel.munmap (k : Kernel) (addr : Nat) : Kernel :=
  { k with maps := k.maps.erase addr, log := k.log ++ [Call.munmap addr] }

/-! Section: framebuffers (main.c lines 18-27, 83-150). -/

/-- Record `struct dumb_framebuffer`. `data` is the address stored by
`create_fb`; the mapping of the buffer is the `size` bytes from `data` on. -/
structure dumb_framebuffer where
  id : Nat
  width : Nat
  height : Nat
  stride : Nat
  handle : Nat
  size : Nat
  data : Nat

/-- Answers of the kernel to the four calls of one `create_fb`:
`DRM_IOCTL_MODE_CREATE_DUMB` (handle, pitch, size), `drmModeAddFB2` (id),
`DRM_IOCTL_MODE_MAP_DUMB` (offset) and `mmap` (address). `none` means that the
call fails: the ioctls return a negative value, `mmap` returns `MAP_FAILED`. -/
structure FbAnswers where
  create : Option (Nat × Nat × Nat)
  addfb : Option Nat
  mapdumb : Option Nat
  mmap : Option Nat

/-- The library call `mmap`: the address of the new mapping, or `MAP_FAILED`. -/
def mmap_result (a : FbAnswers) : Nat :=
  match a.mmap with
  | some addr => addr
  | none => MAP_FAILED

/-- The kernel after the `mmap` call: a successful call adds a mapping. -/
def Kernel.mmap (k : Kernel) (a : FbAnswers) : Kernel :=
  match a.mmap with
  | some addr => { k with maps := addr :: k.maps }
  | none => k

/-- Call `memset(p, v, n)`. With `n = 0` no byte is written. Otherwise the `n`
bytes from `p` on are set when `p` is a live mapping, and the process is killed
when it is not. -/
def Kernel.memset (k : Kernel) (p v n : Nat) : Kernel :=
  if n = 0 then k
  else if p ∈ k.maps then
    { k with mem := fun addr => if p ≤ addr ∧ addr < p + n then v else k.mem addr }
  else { k with fault := true }

/-- Function `create_fb`, lines 83-142. Returns the `bool` result, the contents
of `*fb` and the kernel state. When the kernel state has `fault` set, the
process was killed in the `memset` of line 131 and the caller never sees the
result. -/
def create_fb (k : Kernel) (a : FbAnswers) (width height : Nat) (fb : dumb_framebuffer) :
    Bool × dumb_framebuffer × Kernel :=
  match a.create with
  | none => (false, fb, k.perror "DRM_IOCTL_MODE_CREATE_DUMB")
  | some (handle, pitch, size) =>
    let k := { k with handles := handle :: k.handles }
    let fb := { fb with height := height, width := width, stride := pitch,
                        handle := handle, size := size }
    match a.addfb with
    | none => (false, fb, (k.perror "drmModeAddFB2").destroyDumb fb.handle)
    | some id =>
      let k := { k with fbs := id :: k.fbs }
      let fb := { fb with id := id }
      match a.mapdumb with
      | none =>
        (false, fb, (((k.perror "DRM_IOCTL_MODE_MAP_DUMB").rmFB fb.id).destroyDumb fb.handle))
      | some _offset =>
        let k := k.mmap a
        let fb := { fb with data := mmap_result a }
        if fb.data = 0 then
          (false, fb, (((k.perror "mmap").rmFB fb.id).destroyDumb fb.handle))
        else
          (true, fb, k.memset fb.data 0xff fb.size)

/-- Function `destroy_fb`, lines 144-150. -/
def destroy_fb (k : Kernel) (fb : dumb_framebuffer) : Kernel :=
  ((k.munmap fb.data).rmFB fb.id).destroyDumb fb.handle

/-! Section: the connector record and the page-flip handler (lines 29-52, 152-190). -/

/-- Record `struct connector`. `malloc` leaves every field indeterminate: for
`crtc_id` and `saved` this is `none`, the fields are read only after line 245
and line 290 have assigned them. `front` and `back` point into `fb`. -/
structure connector where
  id : Nat
  connected : Bool
  saved : Option drmModeCrtc
  crtc_id : Option Nat
  mode : drmModeModeInfo
  width : Nat
  height : Nat
  rate : Nat
  fb : Fin 2 → dumb_framebuffer
  front : Fin 2
  back : Fin 2
  colour : List Nat
  inc : Nat
  dec : Nat

/-- Lines 161-162: `colour[inc] += 15; colour[dec] -= 15;` on `uint8_t`. -/
def bump_colour (colour : List Nat) (inc dec : Nat) : List Nat :=
  let colour := colour.set inc ((colour.getD inc 0 + 15) % 2 ^ 8)
  colour.set dec ((colour.getD dec 0 + 2 ^ 8 - 15) % 2 ^ 8)

/-- Lines 161-167, the animation step: the new `colour`, `inc` and `dec`. -/
def animate (colour : List Nat) (inc dec : Nat) : List Nat × Nat × Nat :=
  let colour := bump_colour colour inc dec
  if colour.getD dec 0 = 0 then (colour, (inc + 2) % 3, inc) else (colour, inc, dec)

/-- A one byte store `*p = v` at the address `p`. -/
def store (mem : Nat → Nat) (p v : Nat) : Nat → Nat :=
  fun a => if a = p then v else mem a

/-- Lines 175-178: the four stores of one pixel; `row` is the pointer
`fb->data + fb->stride * y` and `x * 4 + k` is computed in `uint32_t`. -/
def paint_pixel (colour : List Nat) (row : Nat) (mem : Nat → Nat) (x : Nat) : Nat → Nat :=
  let mem := store mem (row + (x * 4 + 0) % 2 ^ 32) (colour.getD 0 0)
  let mem := store mem (row + (x * 4 + 1) % 2 ^ 32) (colour.getD 1 0)
  let mem := store mem (row + (x * 4 + 2) % 2 ^ 32) (colour.getD 2 0)
  store mem (row + (x * 4 + 3) % 2 ^ 32) (colour.getD 3 0)

/-- Lines 174-179: the loop over `x`. -/
def paint_row (colour : List Nat) (width row : Nat) (mem : Nat → Nat) : Nat → Nat :=
  (List.range width).foldl (paint_pixel colour row) mem

/-- Lines 171-180: the loop over `y`, on the memory `mem` of the process;
`fb->stride * y` is computed in `uint32_t` and added to the pointer `fb->data`. -/
def paint (colour : List Nat) (fb : dumb_framebuffer) (mem : Nat → Nat) : Nat → Nat :=
  (List.range fb.height).foldl
    (fun mem y => paint_row colour fb.width (fb.data + (fb.stride * y) % 2 ^ 32) mem) mem

/-- Assignment through a pointer into `conn->fb`. -/
def set_fb (fb : Fin 2 → dumb_framebuffer) (p : Fin 2) (v : dumb_framebuffer) :
    Fin 2 → dumb_framebuffer :=
  fun q => if q = p then v else fb q

/-- Call `drmModePageFlip(drm_fd, crtc_id, fb_id, DRM_MODE_PAGE_FLIP_EVENT, conn)`
followed by the `perror` of a failed call; `ok` is the answer of the kernel. -/
def Kernel.pageFlip (k : Kernel) (ok : Bool) (crtc_id fb_id connector_id : Nat) : Kernel :=
  let k := { k with log := k.log ++ [Call.pageFlip crtc_id fb_id connector_id] }
  if ok then k else k.perror "drmModePageFlip"

/-- Function `page_flip_handler` for the connector passed as `data`; `flip_ok`
is the answer of the kernel to the flip that the handler submits. -/
def page_flip_handler (flip_ok : Bool) (k : Kernel) (conn : connector) : connector × Kernel :=
  let (colour, inc, dec) := animate conn.colour conn.inc conn.dec
  let conn := { conn with colour := colour, inc := inc, dec := dec }
  let fb := conn.back
  let k := { k with mem := paint conn.colour (conn.fb fb) k.mem }
  let k := k.pageFlip flip_ok (conn.crtc_id.getD 0) (conn.fb fb).id conn.id
  ({ conn with back := conn.front, front := fb }, k)

/-- The completion events of one connector handled one after the other; the list
holds the answer of the kernel to the flip submitted by each handler run. -/
def handle_events : List Bool → Kernel → connector → connector × Kernel
  | [], k, conn => (conn, k)
  | flip_ok :: rest, k, conn =>
    let (conn, k) := page_flip_handler flip_ok k conn
    handle_events rest k conn

/-! Section: `main`, the setup loop and the teardown loop (lines 207-308, 339-358). -/

/-- Answers of the kernel and of `malloc` during the loop body for one entry of
`res->connectors`. -/
structure ConnAnswers where
  drm_conn : Option drmModeConnector
  malloc_ok : Bool
  fb0 : FbAnswers
  fb1 : FbAnswers
  saved : Option drmModeCrtc
  setcrtc_ok : Bool
  flip_ok : Bool

/-- A record as `malloc` returns it; no field is read before it is assigned. -/
def malloc_connector : connector :=
  { id := 0, connected := false, saved := none, crtc_id := none, mode := ⟨0, 0⟩,
    width := 0, height := 0, rate := 0,
    fb := fun _ => ⟨0, 0, 0, 0, 0, 0, 0⟩,
    front := 0, back := 0, colour := [0, 0, 0, 0], inc := 0, dec := 0 }

/-- Call `drmModeSetCrtc(drm_fd, crtc_id, fb_id, x, y, &connector_id, 1, &mode)`. -/
def Kernel.setCrtc (k : Kernel) (crtc_id fb_id connector_id : Nat) : Kernel :=
  { k with log := k.log ++ [Call.setCrtc crtc_id fb_id connector_id] }

/-- The second half of the body of the setup loop, lines 254-304, entered once
`find_crtc` has returned the non-zero `crtc_id`; `mode0` is `drm_conn->modes[0]`.
A process that is killed inside a `create_fb` stops there. -/
def start_output (env : Env) (a : ConnAnswers) (crtc_id : Nat) (mode0 : drmModeModeInfo)
    (conn : connector) (k : Kernel) : connector × Kernel :=
  let conn := { conn with mode := mode0 }
  let conn := { conn with width := conn.mode.hdisplay, height := conn.mode.vdisplay,
                          rate := env.refresh_rate conn.mode }
  let r0 := create_fb k a.fb0 conn.width conn.height (conn.fb 0)
  let conn := { conn with fb := set_fb conn.fb 0 r0.2.1 }
  if r0.2.2.fault = true then (conn, r0.2.2) else
  if r0.1 = false then ({ conn with connected := false }, r0.2.2) else
  let r1 := create_fb r0.2.2 a.fb1 conn.width conn.height (conn.fb 1)
  let conn := { conn with fb := set_fb conn.fb 1 r1.2.1 }
  if r1.2.2.fault = true then (conn, r1.2.2) else
  if r1.1 = false then
    ({ conn with connected := false }, destroy_fb r1.2.2 (conn.fb 0))
  else
  let conn := { conn with front := 0, back := 1 }
  let conn := { conn with colour := [0x00, 0x00, 0xff, 0x00], inc := 1, dec := 2 }
  let conn := { conn with saved := a.saved }
  let k := r1.2.2.setCrtc crtc_id (conn.fb conn.front).id conn.id
  if a.setcrtc_ok = false then (conn, k.perror "drmModeSetCrtc") else
  (conn, k.pageFlip a.flip_ok crtc_id (conn.fb conn.front).id conn.id)

/-- The body of the setup loop of `main`, lines 211-307, for one entry of
`res->connectors`. The result is the record pushed on `conn_list` (`none` when
the body leaves before line 229), `taken_crtcs` and the kernel state. -/
def setup_connector (env : Env) (res : drmModeRes) (a : ConnAnswers) (taken_crtcs : Nat)
    (k : Kernel) : Option connector × Nat × Kernel :=
  match a.drm_conn with
  | none => (none, taken_crtcs, k.perror "drmModeGetConnector")
  | some drm_conn =>
    if a.malloc_ok = false then (none, taken_crtcs, k.perror "malloc") else
    let conn := { malloc_connector with
      id := drm_conn.connector_id, connected := drm_conn.connection }
    if conn.connected = false then (some conn, taken_crtcs, k) else
    match drm_conn.modes with
    | [] => (some { conn with connected := false }, taken_crtcs, k)
    | mode0 :: _ =>
      let r := find_crtc env res drm_conn.encoders taken_crtcs
      let conn := { conn with crtc_id := some r.1 }
      if r.1 = 0 then (some { conn with connected := false }, r.2, k) else
      let out := start_output env a r.1 mode0 conn k
      (some out.1, r.2, out.2)

/-- The setup loop of `main`, lines 210-308: `conn_list` grows at its head. The
loop ends with the process when the process is killed in a loop body. -/
def setup_loop (env : Env) (res : drmModeRes) :
    List ConnAnswers → List connector → Nat → Kernel → List connector × Nat × Kernel
  | [], conn_list, taken_crtcs, k => (conn_list, taken_crtcs, k)
  | a :: rest, conn_list, taken_crtcs, k =>
    match setup_connector env res a taken_crtcs k with
    | (none, taken_crtcs, k) =>
      if k.fault = true then (conn_list, taken_crtcs, k)
      else setup_loop env res rest conn_list taken_crtcs k
    | (some conn, taken_crtcs, k) =>
      if k.fault = true then (conn :: conn_list, taken_crtcs, k)
      else setup_loop env res rest (conn :: conn_list) taken_crtcs k

/-- The body of the teardown loop of `main`, lines 342-353, for one record. -/
def teardown_connector (k : Kernel) (conn : connector) : Kernel :=
  if conn.connected then
    let k := destroy_fb k (conn.fb 0)
    let k := destroy_fb k (conn.fb 1)
    match conn.saved with
    | some crtc => k.setCrtc crtc.crtc_id crtc.buffer_id conn.id
    | none => k
  else k

/-- The teardown loop of `main`, lines 340-358. -/
def teardown_loop : List connector → Kernel → Kernel
  | [], k => k
  | conn :: rest, k => teardown_loop rest (teardown_connector k conn)

/-! Section: the animation state on its own. -/

/-- The animation fields `(colour, inc, dec)` of a connector. -/
def anim_of (conn : connector) : List Nat × Nat × Nat := (conn.colour, conn.inc, conn.dec)

/-- One animation step, lines 161-167, on the triple `(colour, inc, dec)`. -/
def anim_step (s : List Nat × Nat × Nat) : List Nat × Nat × Nat := animate s.1 s.2.1 s.2.2

/-- The animation state that `main` stores in lines 282-287. -/
def anim_init : List Nat × Nat × Nat := ([0x00, 0x00, 0xff, 0x00], 1, 2)

/-- The animation state after `n` runs of the handler. -/
def anim_after (n : Nat) : List Nat × Nat × Nat := anim_step^[n] anim_init

/-! Section: predicates used by the proofs. -/

/-- First fit: `r` is the CRTC id and mask for the first free compatible CRTC of
the first encoder that has one, or `(0, taken)` when no encoder has one. -/
def FirstFit (env : Env) (res : drmModeRes) (taken : Nat) (encoders : List Nat)
    (r : Nat × Nat) : Prop :=
    (∃ pre e post enc i, encoders = pre ++ e :: post ∧
        env.drmModeGetEncoder e = some enc ∧ i < res.count_crtcs ∧
        enc.possible_crtcs.testBit i = true ∧ taken.testBit i = false ∧
        (∀ i', i' < i →
          ¬ (enc.possible_crtcs.testBit i' = true ∧ taken.testBit i' = false)) ∧
        (∀ e', e' ∈ pre → ∀ enc', env.drmModeGetEncoder e' = some enc' →
          ∀ i', i' < res.count_crtcs →
            ¬ (enc'.possible_crtcs.testBit i' = true ∧ taken.testBit i' = false)) ∧
        res.crtcs[i]? = some r.1 ∧ r.2 = taken ||| 2 ^ i ∧
        ∀ j, r.2.testBit j = (taken.testBit j || decide (j = i))) ∨
    ((∀ e', e' ∈ encoders → ∀ enc', env.drmModeGetEncoder e' = some enc' →
          ∀ i', i' < res.count_crtcs →
            ¬ (enc'.possible_crtcs.testBit i' = true ∧ taken.testBit i' = false)) ∧
      r = (0, taken))

/-- Invariant of the setup loop: every non-zero CRTC id stored in a record of
`conn_list` belongs to a CRTC index whose bit is set in `taken_crtcs`, and no
non-zero id is stored twice. -/
def ClaimInv (res : drmModeRes) (conn_list : List connector) (taken : Nat) : Prop :=
  (∀ c, c ∈ conn_list → ∀ id, c.crtc_id = some id → id ≠ 0 →
    ∃ i, res.crtcs[i]? = some id ∧ taken.testBit i = true) ∧
  conn_list.Pairwise (fun c1 c2 => ∀ id, c1.crtc_id = some id → c2.crtc_id = some id → id = 0)

/-! Section: concrete devices for the witnesses and the counterexamples. -/

/-- A device with two encoders: encoder 1 drives CRTC 0 and 1, encoder 2 only CRTC 0. -/
def exEnv : Env :=
  { drmModeGetEncoder := fun e =>
      if e = 1 then some ⟨1, 3⟩ else if e = 2 then some ⟨2, 1⟩ else none
    refresh_rate := fun _ => 60000 }

/-- Two CRTCs, with ids 41 and 42. -/
def exRes : drmModeRes := ⟨[41, 42]⟩

/-- A kernel with nothing allocated and a live process. -/
def exKernel : Kernel := ⟨[], [], [], [], false, fun _ => 0⟩

/-- Answers of a `create_fb` in which every call succeeds. -/
def exFb0 : FbAnswers := ⟨some (5, 7680, 8294400), some 9, some 4096, some 16777216⟩

/-- Answers of a second `create_fb` in which every call succeeds. -/
def exFb1 : FbAnswers := ⟨some (6, 7680, 8294400), some 10, some 8192, some 33554432⟩

/-- Answers of a `create_fb` whose `mmap` fails. -/
def exFbNoMap : FbAnswers := ⟨some (5, 7680, 8294400), some 9, some 4096, none⟩

/-- Answers of a `create_fb` whose `drmModeAddFB2` fails. -/
def exFbNoAdd : FbAnswers := ⟨some (5, 7680, 8294400), none, some 4096, some 16777216⟩

/-- Connector 7: connected, one mode, encoder 1, every call succeeds. -/
def exConnA : ConnAnswers :=
  { drm_conn := some ⟨7, true, [⟨1920, 1080⟩], [1]⟩, malloc_ok := true,
    fb0 := exFb0, fb1 := exFb1, saved := some ⟨41, 3, 0, 0⟩,
    setcrtc_ok := true, flip_ok := true }

/-- Connector 8: connected, one mode, encoder 2, every call succeeds. -/
def exConnB : ConnAnswers :=
  { drm_conn := some ⟨8, true, [⟨1920, 1080⟩], [2]⟩, malloc_ok := true,
    fb0 := ⟨some (15, 7680, 8294400), some 19, some 12288, some 50331648⟩,
    fb1 := ⟨some (16, 7680, 8294400), some 20, some 16384, some 67108864⟩,
    saved := none, setcrtc_ok := true, flip_ok := true }

/-- Connector 7 again, but the kernel rejects the initial `drmModeSetCrtc`. -/
def exConnNoModeset : ConnAnswers := { exConnA with setcrtc_ok := false }

/-- Connector 7 again, but the second `create_fb` fails. -/
def exConnNoFb1 : ConnAnswers := { exConnA with fb1 := exFbNoAdd }

/-- A framebuffer as `malloc` leaves it. -/
def exBlankFb : dumb_framebuffer := ⟨0, 0, 0, 0, 0, 0, 0⟩

/-- A 2 x 2 framebuffer with a row padding of four bytes, mapped at 16777216. -/
def exSmallFb : dumb_framebuffer := ⟨9, 2, 2, 12, 5, 24, 16777216⟩

/-- A second 2 x 2 framebuffer, mapped at 33554432. -/
def exSmallFb1 : dumb_framebuffer := ⟨10, 2, 2, 12, 6, 24, 33554432⟩

/-- A 1 x 3 framebuffer whose pitch is `2 ^ 31` bytes. -/
def exWideFb : dumb_framebuffer := ⟨9, 1, 3, 2 ^ 31, 5, 3 * 2 ^ 31, 16777216⟩

/-- A memory in which every byte is `0xff`, as `create_fb` leaves a buffer. -/
def exMem : Nat → Nat := fun _ => 0xff

/-- A kernel with the two small buffers allocated and mapped. -/
def exSmallKernel : Kernel := ⟨[6, 5], [10, 9], [33554432, 16777216], [], false, exMem⟩

/-- A connector past allocation, with the two small buffers. -/
def exOutput : connector :=
  { malloc_connector with
    id := 7, connected := true, crtc_id := some 41,
    fb := fun p => if p = 0 then exSmallFb else exSmallFb1,
    front := 0, back := 1, colour := [0x00, 0x00, 0xff, 0x00], inc := 1, dec := 2 }

/-- A connector whose back buffer `fb[1]` (2 x 2, pitch 8) has a mapping of 8
bytes at 1000, one row short, directly below the mapping of the front buffer
`fb[0]` at 1008. -/
def exTight : connector :=
  { malloc_connector with
    id := 7, connected := true, crtc_id := some 41,
    fb := fun p => if p = 0 then ⟨9, 2, 2, 8, 5, 16, 1008⟩ else ⟨10, 2, 2, 8, 6, 8, 1000⟩,
    front := 0, back := 1, colour := [0x00, 0x00, 0xff, 0x00], inc := 1, dec := 2 }

/-- A kernel with the two buffers of `exTight` allocated and mapped. -/
def exTightKernel : Kernel := ⟨[6, 5], [10, 9], [1000, 1008], [], false, exMem⟩

/-! Section: `find_crtc`, proofs. -/

/-- For an index below 32 the C expression `1 << i` is `2 ^ i`. -/
theorem bitOf_eq {i : Nat} (h : i < 32) : bitOf i = 2 ^ i := by
  unfold bitOf
  rw [Nat.one_shiftLeft]
  exact Nat.mod_eq_of_lt (Nat.pow_lt_pow_right (by decide) h)

/-- Masking with a power of two tests one bit. -/
theorem and_two_pow_eq_zero (x i : Nat) : x &&& 2 ^ i = 0 ↔ x.testBit i = false := by
  constructor
  · intro h
    have := Nat.testBit_and x (2 ^ i) i
    rw [h, Nat.zero_testBit, Nat.testBit_two_pow_self, Bool.and_true] at this
    exact this.symm
  · intro h
    apply Nat.eq_of_testBit_eq
    intro j
    rw [Nat.testBit_and, Nat.zero_testBit, Nat.testBit_two_pow]
    by_cases hj : i = j
    · subst hj; simp [h]
    · simp [hj]

/-- The test `x & bit` of `find_crtc` reads bit `i` of `x`. -/
theorem and_bitOf_eq_zero (x : Nat) {i : Nat} (h : i < 32) :
    x &&& bitOf i = 0 ↔ x.testBit i = false := by
  rw [bitOf_eq h, and_two_pow_eq_zero]

/-- What the inner loop of `find_crtc` finds. -/
theorem scan_crtcs_spec (pc taken : Nat) : ∀ (n i : Nat), i + n ≤ 32 →
    match scan_crtcs pc taken n i with
    | some j => i ≤ j ∧ j < i + n ∧ pc.testBit j = true ∧ taken.testBit j = false ∧
        ∀ j', i ≤ j' → j' < j → ¬ (pc.testBit j' = true ∧ taken.testBit j' = false)
    | none => ∀ j', i ≤ j' → j' < i + n →
        ¬ (pc.testBit j' = true ∧ taken.testBit j' = false) := by
  intro n
  induction n with
  | zero =>
    intro i _
    simp only [scan_crtcs]
    intro j' h1 h2
    omega
  | succ n ih =>
    intro i hi
    have hi32 : i < 32 := by omega
    have step : ∀ (hno : ¬ (pc.testBit i = true ∧ taken.testBit i = false)),
        match scan_crtcs pc taken n (i + 1) with
        | some j => i ≤ j ∧ j < i + (n + 1) ∧ pc.testBit j = true ∧ taken.testBit j = false ∧
            ∀ j', i ≤ j' → j' < j → ¬ (pc.testBit j' = true ∧ taken.testBit j' = false)
        | none => ∀ j', i ≤ j' → j' < i + (n + 1) →
            ¬ (pc.testBit j' = true ∧ taken.testBit j' = false) := by
      intro hno
      have := ih (i + 1) (by omega)
      cases hs : scan_crtcs pc taken n (i + 1) with
      | none =>
        rw [hs] at this
        intro j' h1 h2
        by_cases hj : j' = i
        · subst hj; exact hno
        · exact this j' (by omega) (by omega)
      | some j =>
        rw [hs] at this
        obtain ⟨h1, h2, h3, h4, h5⟩ := this
        refine ⟨by omega, by omega, h3, h4, ?_⟩
        intro j' hj1 hj2
        by_cases hj : j' = i
        · subst hj; exact hno
        · exact h5 j' (by omega) hj2
    unfold scan_crtcs
    by_cases hp : pc &&& bitOf i = 0
    · rw [if_pos hp]
      apply step
      rw [and_bitOf_eq_zero pc hi32] at hp
      simp [hp]
    · rw [if_neg hp]
      by_cases ht : taken &&& bitOf i ≠ 0
      · rw [if_pos ht]
        apply step
        rw [Ne, and_bitOf_eq_zero taken hi32] at ht
        simp [ht]
      · rw [if_neg ht]
        rw [Ne, not_not, and_bitOf_eq_zero taken hi32] at ht
        rw [and_bitOf_eq_zero pc hi32, Bool.not_eq_false] at hp
        refine ⟨le_refl _, by omega, hp, ht, ?_⟩
        intro j' h1 h2
        omega

/-- The bits of a mask after or-ing in one bit. -/
theorem testBit_or_two_pow (taken i j : Nat) :
    (taken ||| 2 ^ i).testBit j = (taken.testBit j || decide (j = i)) := by
  rw [Nat.testBit_or, Nat.testBit_two_pow]
  congr 1
  by_cases h : i = j
  · simp [h]
  · have : ¬ j = i := fun h' => h h'.symm
    simp [h, this]

/-- Characterisation of `find_crtc`. -/
theorem find_crtc_char (env : Env) (res : drmModeRes) (taken : Nat)
    (h32 : res.count_crtcs ≤ 32) : ∀ encoders : List Nat,
    FirstFit env res taken encoders (find_crtc env res encoders taken) := by
  intro encoders
  induction encoders with
  | nil =>
    right
    exact ⟨fun e' he' => absurd he' (List.not_mem_nil _), rfl⟩
  | cons e rest ih =>
    have skip : (∀ enc', env.drmModeGetEncoder e = some enc' →
          ∀ i', i' < res.count_crtcs →
            ¬ (enc'.possible_crtcs.testBit i' = true ∧ taken.testBit i' = false)) →
        find_crtc env res (e :: rest) taken = find_crtc env res rest taken →
        FirstFit env res taken (e :: rest) (find_crtc env res (e :: rest) taken) := by
      intro hnone heq
      rcases ih with ⟨pre, e1, post, enc, i, h1, h2, h3, h4, h5, h6, h7, h8, h9, h10⟩ | ⟨h1, h2⟩
      · left
        refine ⟨e :: pre, e1, post, enc, i, by rw [h1]; rfl, h2, h3, h4, h5, h6, ?_, ?_, ?_, ?_⟩
        · intro e' he'
          rcases List.mem_cons.mp he' with rfl | hm
          · exact hnone
          · exact h7 e' hm
        · rw [heq]; exact h8
        · rw [heq]; exact h9
        · rw [heq]; exact h10
      · right
        refine ⟨?_, by rw [heq]; exact h2⟩
        intro e' he'
        rcases List.mem_cons.mp he' with rfl | hm
        · exact hnone
        · exact h1 e' hm
    cases hg : env.drmModeGetEncoder e with
    | none =>
      apply skip
      · intro enc' h; rw [hg] at h; cases h
      · simp only [find_crtc, hg]
    | some enc =>
      have hs := scan_crtcs_spec enc.possible_crtcs taken res.count_crtcs 0 (by omega)
      cases hsc : scan_crtcs enc.possible_crtcs taken res.count_crtcs 0 with
      | none =>
        rw [hsc] at hs
        apply skip
        · intro enc' h
          rw [hg] at h
          cases h
          intro i' hi'
          exact hs i' (Nat.zero_le _) (by omega)
        · simp only [find_crtc, hg, hsc]
      | some i =>
        rw [hsc] at hs
        obtain ⟨_, h2, h3, h4, h5⟩ := hs
        have hi : i < res.crtcs.length := by
          have : i < res.count_crtcs := by omega
          exact this
        left
        have hmask : (find_crtc env res (e :: rest) taken).2 = taken ||| 2 ^ i := by
          simp only [find_crtc, hg, hsc]
          rw [bitOf_eq (by omega)]
        refine ⟨[], e, rest, enc, i, rfl, hg, by omega, h3, h4, ?_, ?_, ?_, hmask, ?_⟩
        · intro i' hi'
          exact h5 i' (Nat.zero_le _) hi'
        · intro e' he'
          exact absurd he' (List.not_mem_nil _)
        · simp only [find_crtc, hg, hsc]
          rw [List.getD_eq_getElem?_getD, List.getElem?_eq_getElem hi]
          rfl
        · intro j
          rw [hmask, testBit_or_two_pow]

/-- Weak form of the characterisation of `find_crtc`, enough for uniqueness. -/
theorem find_crtc_claim (env : Env) (res : drmModeRes) (taken : Nat)
    (h32 : res.count_crtcs ≤ 32) (encoders : List Nat) :
    find_crtc env res encoders taken = (0, taken) ∨
    ∃ i, res.crtcs[i]? = some (find_crtc env res encoders taken).1 ∧
      taken.testBit i = false ∧ (find_crtc env res encoders taken).2 = taken ||| 2 ^ i := by
  rcases find_crtc_char env res taken h32 encoders with
    ⟨_, _, _, _, i, _, _, _, _, h5, _, _, h8, h9, _⟩ | ⟨_, h2⟩
  · exact Or.inr ⟨i, h8, h5, h9⟩
  · exact Or.inl h2

/-- The second half of the loop body does not touch `conn->crtc_id`. -/
theorem start_output_crtc_id (env : Env) (a : ConnAnswers) (crtc_id : Nat)
    (mode0 : drmModeModeInfo) (conn : connector) (k : Kernel) :
    (start_output env a crtc_id mode0 conn k).1.crtc_id = conn.crtc_id := by
  unfold start_output
  simp only []
  split_ifs <;> rfl

/-- Each run of the loop body either leaves `taken_crtcs` alone and stores no
non-zero CRTC id, or claims a CRTC index that was free. -/
theorem setup_connector_claim (env : Env) (res : drmModeRes) (a : ConnAnswers) (taken : Nat)
    (k : Kernel) (h32 : res.count_crtcs ≤ 32) :
    ((setup_connector env res a taken k).2.1 = taken ∧
      ∀ c, (setup_connector env res a taken k).1 = some c →
        ∀ id, c.crtc_id = some id → id = 0) ∨
    ∃ i id, res.crtcs[i]? = some id ∧ taken.testBit i = false ∧
      (setup_connector env res a taken k).2.1 = taken ||| 2 ^ i ∧
      ∀ c, (setup_connector env res a taken k).1 = some c → c.crtc_id = some id := by
  unfold setup_connector
  cases hd : a.drm_conn with
  | none => left; simp
  | some d =>
    simp only []
    by_cases hm : a.malloc_ok = false
    · left; simp [hm]
    · rw [if_neg hm]
      by_cases hc : d.connection = false
      · left
        rw [if_pos hc]
        simp [malloc_connector]
      · rw [if_neg hc]
        cases hmo : d.modes with
        | nil => left; simp [malloc_connector]
        | cons m0 ms =>
          simp only []
          rcases find_crtc_claim env res taken h32 d.encoders with h | ⟨i, h1, h2, h3⟩
          · left
            rw [h]
            simp
          · by_cases hz : (find_crtc env res d.encoders taken).1 = 0
            · right
              refine ⟨i, _, h1, h2, ?_, ?_⟩
              · rw [if_pos hz]; exact h3
              · rw [if_pos hz]
                intro c hc'
                cases hc'
                rfl
            · right
              refine ⟨i, _, h1, h2, ?_, ?_⟩
              · rw [if_neg hz]; exact h3
              · rw [if_neg hz]
                intro c hc'
                cases hc'
                rw [start_output_crtc_id]

/-- Positions with the same entry in a list without duplicates are equal. -/
theorem index_eq_of_nodup {l : List Nat} (h : l.Nodup) {i j : Nat} {x : Nat}
    (hi : l[i]? = some x) (hj : l[j]? = some x) : i = j := by
  obtain ⟨hi1, hi2⟩ := List.getElem?_eq_some.mp hi
  obtain ⟨hj1, hj2⟩ := List.getElem?_eq_some.mp hj
  exact (List.Nodup.getElem_inj_iff h).mp (hi2.trans hj2.symm)

/-- The setup loop keeps `ClaimInv`. -/
theorem setup_loop_inv (env : Env) (res : drmModeRes) (h32 : res.count_crtcs ≤ 32)
    (hnd : res.crtcs.Nodup) : ∀ (answers : List ConnAnswers) (conn_list : List connector)
    (taken : Nat) (k : Kernel), ClaimInv res conn_list taken →
    ClaimInv res (setup_loop env res answers conn_list taken k).1
      (setup_loop env res answers conn_list taken k).2.1 := by
  intro answers
  induction answers with
  | nil => intro cl t k h; exact h
  | cons a rest ih =>
    intro cl t k hinv
    have hstep := setup_connector_claim env res a t k h32
    unfold setup_loop
    rcases hr : setup_connector env res a t k with ⟨oc, t', k'⟩
    rw [hr] at hstep
    simp only at hstep
    have hbits : (∀ j, t.testBit j = true → t'.testBit j = true) := by
      rcases hstep with ⟨h1, _⟩ | ⟨i, id, _, _, h3, _⟩
      · rw [h1]; exact fun _ h => h
      · rw [h3]
        intro j hj
        rw [Nat.testBit_or, hj, Bool.true_or]
    have hold : ∀ c, c ∈ cl → ∀ id, c.crtc_id = some id → id ≠ 0 →
        ∃ i, res.crtcs[i]? = some id ∧ t'.testBit i = true := by
      intro c hc id hid hne
      obtain ⟨i, hi1, hi2⟩ := hinv.1 c hc id hid hne
      exact ⟨i, hi1, hbits i hi2⟩
    cases oc with
    | none =>
      simp only []
      split_ifs
      · exact ⟨hold, hinv.2⟩
      · exact ih cl t' k' ⟨hold, hinv.2⟩
    | some cnew =>
      have hnew : ClaimInv res (cnew :: cl) t' := by
        refine ⟨?_, ?_⟩
        · intro c hc id hid hne
          rcases List.mem_cons.mp hc with rfl | hc
          · rcases hstep with ⟨_, h2⟩ | ⟨i, id', h1, _, h3, h4⟩
            · exact absurd (h2 _ rfl id hid) hne
            · have := h4 _ rfl
              rw [hid] at this
              cases this
              refine ⟨i, h1, ?_⟩
              rw [h3, Nat.testBit_or, Nat.testBit_two_pow_self, Bool.or_true]
          · exact hold c hc id hid hne
        · refine List.pairwise_cons.mpr ⟨?_, hinv.2⟩
          intro c hc id hid1 hid2
          by_contra hne
          rcases hstep with ⟨_, h2⟩ | ⟨i, id', h1, hfree, _, h4⟩
          · exact hne (h2 _ rfl id hid1)
          · have := h4 _ rfl
            rw [hid1] at this
            cases this
            obtain ⟨j, hj1, hj2⟩ := hinv.1 c hc id hid2 hne
            have : i = j := index_eq_of_nodup hnd h1 hj1
            subst this
            rw [hfree] at hj2
            cases hj2
      simp only []
      split_ifs
      · exact hnew
      · exact ih (cnew :: cl) t' k' hnew

/-- C2: `find_crtc` is first fit. With at most 32 CRTCs, either there is a first
encoder of the list (every earlier encoder has no free compatible CRTC, a failed
encoder lookup has none) and a first CRTC index `i` in device order whose bit is
set in that encoder's `possible_crtcs` and clear in the mask, and then
`find_crtc` returns `res->crtcs[i]` and the mask is the old mask with exactly
bit `i` added; or no encoder has such a CRTC, and then `find_crtc` returns 0
and the mask is unchanged. -/
theorem find_crtc_first_fit (env : Env) (res : drmModeRes) (encoders : List Nat)
    (taken : Nat) (h32 : res.count_crtcs ≤ 32) :
    (∃ pre e post enc i, encoders = pre ++ e :: post ∧
        env.drmModeGetEncoder e = some enc ∧ i < res.count_crtcs ∧
        enc.possible_crtcs.testBit i = true ∧ taken.testBit i = false ∧
        (∀ i', i' < i →
          ¬ (enc.possible_crtcs.testBit i' = true ∧ taken.testBit i' = false)) ∧
        (∀ e', e' ∈ pre → ∀ enc', env.drmModeGetEncoder e' = some enc' →
          ∀ i', i' < res.count_crtcs →
            ¬ (enc'.possible_crtcs.testBit i' = true ∧ taken.testBit i' = false)) ∧
        res.crtcs[i]? = some (find_crtc env res encoders taken).1 ∧
        (find_crtc env res encoders taken).2 = taken ||| 2 ^ i ∧
        ∀ j, (find_crtc env res encoders taken).2.testBit j =
          (taken.testBit j || decide (j = i))) ∨
    ((∀ e', e' ∈ encoders → ∀ enc', env.drmModeGetEncoder e' = some enc' →
          ∀ i', i' < res.count_crtcs →
            ¬ (enc'.possible_crtcs.testBit i' = true ∧ taken.testBit i' = false)) ∧
      find_crtc env res encoders taken = (0, taken)) :=
  find_crtc_char env res taken h32 encoders

/-- Witness of C2: connector with the encoders 2 and 1 on the example device,
CRTC 0 already claimed. -/
theorem find_crtc_first_fit_witness :
    exRes.count_crtcs ≤ 32 ∧
    FirstFit exEnv exRes 1 [2, 1] (find_crtc exEnv exRes [2, 1] 1) :=
  ⟨by decide, find_crtc_first_fit exEnv exRes [2, 1] 1 (by decide)⟩

/-- C1: on a device with at most 32 CRTCs whose ids are pairwise distinct, for
every list of connectors, every encoder bitmap and every answer of the kernel,
after the setup loop (started with `taken_crtcs = 0` and an empty `conn_list`)
two different records of `conn_list` to which line 245 assigned the same
`crtc_id` can only hold the value 0: no non-zero CRTC id is held twice. -/
theorem setup_loop_crtc_ids_distinct (env : Env) (res : drmModeRes)
    (answers : List ConnAnswers) (k : Kernel)
    (h32 : res.count_crtcs ≤ 32) (hnd : res.crtcs.Nodup) :
    (setup_loop env res answers [] 0 k).1.Pairwise
      (fun c1 c2 => ∀ id, c1.crtc_id = some id → c2.crtc_id = some id → id = 0) := by
  refine (setup_loop_inv env res h32 hnd answers [] 0 k ⟨?_, List.Pairwise.nil⟩).2
  intro c hc
  cases hc

/-- Witness of C1: the example device with three connectors. -/
theorem setup_loop_crtc_ids_distinct_witness :
    exRes.count_crtcs ≤ 32 ∧ exRes.crtcs.Nodup ∧
    (setup_loop exEnv exRes [exConnA, exConnB, exConnNoFb1] [] 0 exKernel).1.Pairwise
      (fun c1 c2 => ∀ id, c1.crtc_id = some id → c2.crtc_id = some id → id = 0) :=
  ⟨by decide, by decide,
    setup_loop_crtc_ids_distinct exEnv exRes [exConnA, exConnB, exConnNoFb1] exKernel
      (by decide) (by decide)⟩

/-- C10: first fit is no maximum matching. On the example device (CRTC ids 41
and 42; connector 7 has encoder 1, compatible with CRTC 0 and 1; connector 8 has
encoder 2, compatible with CRTC 0 only) the assignment connector 7 to CRTC 1 and
connector 8 to CRTC 0 gives every connector its own compatible CRTC, yet the
setup loop gives CRTC 0 (id 41) to connector 7, and `find_crtc` returns 0 for
connector 8, which ends with `connected = false`. -/
theorem first_fit_not_maximum :
    (∃ e7 e8, exEnv.drmModeGetEncoder 1 = some e7 ∧ exEnv.drmModeGetEncoder 2 = some e8 ∧
      e7.possible_crtcs.testBit 1 = true ∧ e8.possible_crtcs.testBit 0 = true ∧
      1 < exRes.count_crtcs ∧ (0 : Nat) ≠ 1) ∧
    find_crtc exEnv exRes [1] 0 = (41, 1) ∧
    find_crtc exEnv exRes [2] 1 = (0, 1) ∧
    (setup_loop exEnv exRes [exConnA, exConnB] [] 0 exKernel).1.map
      (fun c => (c.id, c.crtc_id, c.connected)) = [(8, some 0, false), (7, some 41, true)] := by
  refine ⟨⟨⟨1, 3⟩, ⟨2, 1⟩, rfl, rfl, by decide, by decide, by decide, by decide⟩, ?_, ?_, ?_⟩
  · decide!
  · decide!
  · decide!

/-! Section: the animation, proofs. -/

/-- After 51 steps the animation is back at its start. -/
theorem anim_after_add_period (n : Nat) : anim_after (n + 51) = anim_after n := by
  have h : anim_step^[51] anim_init = anim_init := by decide!
  unfold anim_after
  rw [Function.iterate_add_apply, h]

/-- The animation state depends on the number of steps modulo 51 only. -/
theorem anim_after_mod (n : Nat) : anim_after n = anim_after (n % 51) := by
  induction n using Nat.strong_induction_on with
  | _ n ih =>
    by_cases h : n < 51
    · rw [Nat.mod_eq_of_lt h]
    · have h1 : n = (n - 51) + 51 := by omega
      rw [h1, anim_after_add_period, Nat.add_mod_right]
      exact ih _ (by omega)

/-- The handler changes the animation fields by one animation step. -/
theorem anim_of_page_flip_handler (flip_ok : Bool) (k : Kernel) (conn : connector) :
    anim_of (page_flip_handler flip_ok k conn).1 = anim_step (anim_of conn) := by
  rfl

/-- The animation fields after a sequence of completion events. -/
theorem anim_of_handle_events (evs : List Bool) (k : Kernel) (conn : connector) :
    anim_of (handle_events evs k conn).1 = anim_step^[evs.length] (anim_of conn) := by
  induction evs generalizing k conn with
  | nil => rfl
  | cons e rest ih =>
    simp only [handle_events, List.length_cons, Function.iterate_succ_apply]
    rw [ih, anim_of_page_flip_handler]

/-- C3: from the state stored by `main` (colour `[0, 0, 255, 0]`, `inc = 1`,
`dec = 2`), after `n` animation steps the pair `(inc, dec)` is `(1, 2)` while
`n % 51 < 17`, `(0, 1)` while `17 ≤ n % 51 < 34` and `(2, 0)` while
`34 ≤ n % 51`; and in step `n + 1` the channel at `dec` is 0 after the two
updates of lines 161-162, so that the rotation of lines 164-167 fires, exactly
when `n + 1` is a multiple of 17. The first rotation is therefore in step 17,
each pair lasts 17 steps, and the three pairs are visited cyclically. -/
theorem animation_cycle (n : Nat) :
    ((anim_after n).2.1, (anim_after n).2.2) =
        (if n % 51 < 17 then (1, 2) else if n % 51 < 34 then (0, 1) else (2, 0)) ∧
    ((bump_colour (anim_after n).1 (anim_after n).2.1 (anim_after n).2.2).getD
        (anim_after n).2.2 0 = 0 ↔ (n + 1) % 17 = 0) := by
  have key : ∀ m, m < 51 →
      ((anim_after m).2.1, (anim_after m).2.2) =
        (if m < 17 then (1, 2) else if m < 34 then (0, 1) else (2, 0)) ∧
      ((bump_colour (anim_after m).1 (anim_after m).2.1 (anim_after m).2.2).getD
        (anim_after m).2.2 0 = 0 ↔ (m + 1) % 17 = 0) := by decide!
  have hm : n % 51 < 51 := Nat.mod_lt _ (by decide)
  have := key (n % 51) hm
  rw [anim_after_mod n]
  refine ⟨this.1, this.2.trans ?_⟩
  omega

/-- C9: for a connector that holds the animation state stored by `main`, after
any sequence of completion events handled by `page_flip_handler`: `inc` and
`dec` are distinct indices below 3, `colour` has its four entries,
`colour[inc] + colour[dec] = 255` with both multiples of 15, the third channel
and `colour[3]` are 0, `colour[dec] ≥ 15` and `colour[inc] ≤ 240`, so the next
`+= 15` and `-= 15` do not wrap (the 8-bit updates agree with the updates on
unbounded numbers), and the animation state is the initial one exactly when the
number of handled events is a multiple of 51. -/
theorem animation_invariant (evs : List Bool) (k : Kernel) (conn : connector)
    (h0 : anim_of conn = anim_init) :
    ∀ c, c = (handle_events evs k conn).1 →
      c.inc < 3 ∧ c.dec < 3 ∧ c.inc ≠ c.dec ∧ c.colour.length = 4 ∧
      c.colour.getD c.inc 0 + c.colour.getD c.dec 0 = 255 ∧
      15 ∣ c.colour.getD c.inc 0 ∧ 15 ∣ c.colour.getD c.dec 0 ∧
      c.colour.getD (3 - c.inc - c.dec) 0 = 0 ∧ c.colour.getD 3 0 = 0 ∧
      15 ≤ c.colour.getD c.dec 0 ∧ c.colour.getD c.inc 0 ≤ 240 ∧
      bump_colour c.colour c.inc c.dec =
        (c.colour.set c.inc (c.colour.getD c.inc 0 + 15)).set c.dec
          (c.colour.getD c.dec 0 - 15) ∧
      (anim_of c = anim_init ↔ evs.length % 51 = 0) := by
  intro c hc
  have hs : anim_of c = anim_after (evs.length % 51) := by
    rw [hc, anim_of_handle_events, h0, ← anim_after_mod]
    rfl
  have key : ∀ m, m < 51 → ∀ s, s = anim_after m →
      s.2.1 < 3 ∧ s.2.2 < 3 ∧ s.2.1 ≠ s.2.2 ∧ s.1.length = 4 ∧
      s.1.getD s.2.1 0 + s.1.getD s.2.2 0 = 255 ∧
      15 ∣ s.1.getD s.2.1 0 ∧ 15 ∣ s.1.getD s.2.2 0 ∧
      s.1.getD (3 - s.2.1 - s.2.2) 0 = 0 ∧ s.1.getD 3 0 = 0 ∧
      15 ≤ s.1.getD s.2.2 0 ∧ s.1.getD s.2.1 0 ≤ 240 ∧
      bump_colour s.1 s.2.1 s.2.2 =
        (s.1.set s.2.1 (s.1.getD s.2.1 0 + 15)).set s.2.2 (s.1.getD s.2.2 0 - 15) ∧
      (s = anim_init ↔ m = 0) := by
    have key' : ∀ m, m < 51 →
      (anim_after m).2.1 < 3 ∧ (anim_after m).2.2 < 3 ∧
      (anim_after m).2.1 ≠ (anim_after m).2.2 ∧ (anim_after m).1.length = 4 ∧
      (anim_after m).1.getD (anim_after m).2.1 0 +
        (anim_after m).1.getD (anim_after m).2.2 0 = 255 ∧
      15 ∣ (anim_after m).1.getD (anim_after m).2.1 0 ∧
      15 ∣ (anim_after m).1.getD (anim_after m).2.2 0 ∧
      (anim_after m).1.getD (3 - (anim_after m).2.1 - (anim_after m).2.2) 0 = 0 ∧
      (anim_after m).1.getD 3 0 = 0 ∧
      15 ≤ (anim_after m).1.getD (anim_after m).2.2 0 ∧
      (anim_after m).1.getD (anim_after m).2.1 0 ≤ 240 ∧
      bump_colour (anim_after m).1 (anim_after m).2.1 (anim_after m).2.2 =
        ((anim_after m).1.set (anim_after m).2.1
          ((anim_after m).1.getD (anim_after m).2.1 0 + 15)).set (anim_after m).2.2
          ((anim_after m).1.getD (anim_after m).2.2 0 - 15) ∧
      (anim_after m = anim_init ↔ m = 0) := by decide!
    intro m hm s hs
    subst hs
    exact key' m hm
  exact key (evs.length % 51) (Nat.mod_lt _ (by decide)) (anim_of c) hs

/-- Witness of C9: the example connector and three completion events. -/
theorem animation_invariant_witness :
    anim_of exOutput = anim_init ∧
    (handle_events [true, false, true] exKernel exOutput).1.inc < 3 :=
  ⟨rfl, (animation_invariant [true, false, true] exKernel exOutput rfl _ rfl).1⟩

/-! Section: the repaint loop, proofs. -/

/-- The bytes after the four stores of one pixel. -/
theorem paint_pixel_apply (colour : List Nat) (row x : Nat) (mem : Nat → Nat) (off : Nat)
    (hx : x * 4 + 3 < 2 ^ 32) :
    paint_pixel colour row mem x off =
      if row + 4 * x ≤ off ∧ off < row + 4 * (x + 1) then
        colour.getD ((off - row) % 4) 0 else mem off := by
  have e0 : (x * 4 + 0) % 2 ^ 32 = x * 4 := Nat.mod_eq_of_lt (by omega)
  have e1 : (x * 4 + 1) % 2 ^ 32 = x * 4 + 1 := Nat.mod_eq_of_lt (by omega)
  have e2 : (x * 4 + 2) % 2 ^ 32 = x * 4 + 2 := Nat.mod_eq_of_lt (by omega)
  have e3 : (x * 4 + 3) % 2 ^ 32 = x * 4 + 3 := Nat.mod_eq_of_lt (by omega)
  simp only [paint_pixel, store, e0, e1, e2, e3]
  by_cases h3 : off = row + (x * 4 + 3)
  · have : (off - row) % 4 = 3 := by omega
    rw [if_pos h3, if_pos (by omega), this]
  · rw [if_neg h3]
    by_cases h2 : off = row + (x * 4 + 2)
    · have : (off - row) % 4 = 2 := by omega
      rw [if_pos h2, if_pos (by omega), this]
    · rw [if_neg h2]
      by_cases h1 : off = row + (x * 4 + 1)
      · have : (off - row) % 4 = 1 := by omega
        rw [if_pos h1, if_pos (by omega), this]
      · rw [if_neg h1]
        by_cases h0 : off = row + x * 4
        · have : (off - row) % 4 = 0 := by omega
          rw [if_pos h0, if_pos (by omega), this]
        · rw [if_neg h0, if_neg (by omega)]

/-- The bytes after the loop over `x` for one row. -/
theorem paint_row_apply (colour : List Nat) (row : Nat) (mem : Nat → Nat) (off : Nat) :
    ∀ width, 4 * width ≤ 2 ^ 32 →
    paint_row colour width row mem off =
      if row ≤ off ∧ off < row + 4 * width then
        colour.getD ((off - row) % 4) 0 else mem off := by
  intro width
  induction width with
  | zero =>
    intro _
    simp only [paint_row, List.range_zero, List.foldl_nil]
    rw [if_neg (by omega)]
  | succ w ih =>
    intro hw
    have ih' := ih (by omega)
    unfold paint_row at ih' ⊢
    rw [List.range_succ, List.foldl_append, List.foldl_cons, List.foldl_nil,
      paint_pixel_apply _ _ _ _ _ (by omega), ih']
    by_cases h1 : row + 4 * w ≤ off ∧ off < row + 4 * (w + 1)
    · rw [if_pos h1, if_pos (by omega)]
    · rw [if_neg h1]
      by_cases h2 : row ≤ off ∧ off < row + 4 * w
      · rw [if_pos h2, if_pos (by omega)]
      · rw [if_neg h2, if_neg (by omega)]

/-- The bytes after the first `n` rows of the loop over `y`, for a buffer at
the address `data`. -/
theorem paint_rows_apply (colour : List Nat) (width stride data : Nat) (mem : Nat → Nat)
    (addr : Nat) (hw : 4 * width ≤ stride) (hs : stride < 2 ^ 32) :
    ∀ n, (∀ y, y < n → stride * y < 2 ^ 32) →
    (List.range n).foldl
      (fun mem y => paint_row colour width (data + (stride * y) % 2 ^ 32) mem) mem addr =
      if data ≤ addr ∧ (addr - data) / stride < n ∧ (addr - data) % stride < 4 * width then
        colour.getD (((addr - data) % stride) % 4) 0 else mem addr := by
  intro n
  induction n with
  | zero =>
    intro _
    simp only [List.range_zero, List.foldl_nil]
    rw [if_neg (fun h => Nat.not_lt_zero _ h.2.1)]
  | succ n ih =>
    intro hy
    have ih' := ih (fun y h => hy y (by omega))
    rw [List.range_succ, List.foldl_append, List.foldl_cons, List.foldl_nil,
      Nat.mod_eq_of_lt (hy n (by omega)), paint_row_apply _ _ _ _ _ (by omega), ih']
    by_cases hd : data ≤ addr
    · obtain ⟨off, rfl⟩ : ∃ off, addr = data + off := ⟨addr - data, by omega⟩
      simp only [Nat.add_sub_cancel_left]
      have hdm := Nat.div_add_mod off stride
      by_cases hs0 : stride = 0
      · subst hs0
        have : width = 0 := by omega
        subst this
        simp
      have hpos : 0 < stride := Nat.pos_of_ne_zero hs0
      have hml := Nat.mod_lt off hpos
      by_cases h1 : stride * n ≤ off ∧ off < stride * n + 4 * width
      · have hq : off / stride = n := by
          apply Nat.div_eq_of_lt_le
          · rw [Nat.mul_comm]; exact h1.1
          · rw [Nat.mul_comm, Nat.mul_succ]; omega
        have hr : off % stride = off - stride * n := by
          rw [← hq]; omega
        have e : data + off - (data + stride * n) = off - stride * n := by omega
        rw [if_pos (by omega), if_pos ⟨hd, by omega, by omega⟩, hr, e]
      · rw [if_neg (by omega)]
        by_cases h2 : off / stride < n ∧ off % stride < 4 * width
        · rw [if_pos ⟨hd, h2⟩, if_pos ⟨hd, by omega, h2.2⟩]
        · rw [if_neg (fun h => h2 h.2), if_neg]
          intro h3
          apply h1
          have hq : off / stride = n := by omega
          rw [hq] at hdm
          omega
    · rw [if_neg (by omega), if_neg (fun h => hd h.1), if_neg (fun h => hd h.1)]

/-- The repaint loop stays inside the mapping, also when a row offset wraps:
for a buffer with `stride ≥ 4 * width`, a 32-bit `stride` and a mapping of at
least `stride * height` bytes, no byte outside the `size` bytes from `data` on
changes. -/
theorem paint_in_bounds (colour : List Nat) (fb : dumb_framebuffer) (mem : Nat → Nat)
    (hs : fb.stride < 2 ^ 32) (hw : 4 * fb.width ≤ fb.stride)
    (hsize : fb.stride * fb.height ≤ fb.size) (addr : Nat)
    (hout : ¬ (fb.data ≤ addr ∧ addr < fb.data + fb.size)) :
    paint colour fb mem addr = mem addr := by
  have rows : ∀ n, n ≤ fb.height →
      (List.range n).foldl
        (fun mem y => paint_row colour fb.width (fb.data + (fb.stride * y) % 2 ^ 32) mem)
        mem addr = mem addr := by
    intro n
    induction n with
    | zero => intro _; rfl
    | succ n ih =>
      intro hn
      rw [List.range_succ, List.foldl_append, List.foldl_cons, List.foldl_nil,
        paint_row_apply _ _ _ _ _ (by omega), ih (by omega), if_neg]
      intro h
      have h1 : fb.stride * n % 2 ^ 32 ≤ fb.stride * n := Nat.mod_le _ _
      have h2 : fb.stride * (n + 1) ≤ fb.stride * fb.height := Nat.mul_le_mul_left _ hn
      rw [Nat.mul_succ] at h2
      omega
  exact rows fb.height (le_refl _)

/-- The bytes after the repaint loop, when no row offset wraps. -/
theorem paint_apply (colour : List Nat) (fb : dumb_framebuffer) (mem : Nat → Nat)
    (addr : Nat) (hs : fb.stride < 2 ^ 32) (hw : 4 * fb.width ≤ fb.stride)
    (hrow : fb.stride * (fb.height - 1) < 2 ^ 32) :
    paint colour fb mem addr =
      if fb.data ≤ addr ∧ (addr - fb.data) / fb.stride < fb.height ∧
          (addr - fb.data) % fb.stride < 4 * fb.width then
        colour.getD (((addr - fb.data) % fb.stride) % 4) 0 else mem addr := by
  unfold paint
  apply paint_rows_apply colour fb.width fb.stride fb.data mem addr hw hs
  intro y hy
  have : fb.stride * y ≤ fb.stride * (fb.height - 1) := Nat.mul_le_mul_left _ (by omega)
  omega

/-- The repaint loop when no row offset wraps: the pixel bytes hold the colour,
they lie inside the mapping, and every other byte keeps its value. -/
theorem paint_spec (colour : List Nat) (fb : dumb_framebuffer) (mem : Nat → Nat)
    (hs : fb.stride < 2 ^ 32) (hw : 4 * fb.width ≤ fb.stride)
    (hsize : fb.stride * fb.height ≤ fb.size)
    (hrow : fb.stride * (fb.height - 1) < 2 ^ 32) :
    (∀ x y k, x < fb.width → y < fb.height → k < 4 →
      paint colour fb mem (fb.data + (fb.stride * y + 4 * x + k)) = colour.getD k 0 ∧
      fb.stride * y + 4 * x + k < fb.size) ∧
    (∀ addr, (¬ ∃ x y k, x < fb.width ∧ y < fb.height ∧ k < 4 ∧
        addr = fb.data + (fb.stride * y + 4 * x + k)) →
      paint colour fb mem addr = mem addr) := by
  constructor
  · intro x y k hx hy hk
    have hlt : 4 * x + k < fb.stride := by omega
    have hpos : 0 < fb.stride := by omega
    have hq : (fb.stride * y + 4 * x + k) / fb.stride = y := by
      rw [Nat.add_assoc, Nat.mul_add_div hpos, Nat.div_eq_of_lt hlt, Nat.add_zero]
    have hr : (fb.stride * y + 4 * x + k) % fb.stride = 4 * x + k := by
      rw [Nat.add_assoc, Nat.mul_add_mod, Nat.mod_eq_of_lt hlt]
    constructor
    · rw [paint_apply colour fb mem _ hs hw hrow, Nat.add_sub_cancel_left, hq, hr,
        if_pos ⟨Nat.le_add_right _ _, hy, by omega⟩]
      have : (4 * x + k) % 4 = k := by omega
      rw [this]
    · have h1 : fb.stride * (y + 1) ≤ fb.stride * fb.height := Nat.mul_le_mul_left _ hy
      rw [Nat.mul_succ] at h1
      omega
  · intro addr hno
    rw [paint_apply colour fb mem _ hs hw hrow, if_neg]
    intro hin
    apply hno
    refine ⟨(addr - fb.data) % fb.stride / 4, (addr - fb.data) / fb.stride,
      (addr - fb.data) % fb.stride % 4, ?_, hin.2.1, ?_, ?_⟩
    · omega
    · omega
    · have := Nat.div_add_mod (addr - fb.data) fb.stride
      omega

/-- C6 as the code has it: for a buffer with `stride ≥ 4 * width`, mapped size
`≥ stride * height` and, in addition, `stride * (height - 1) < 2 ^ 32` (no row
offset `stride * y` wraps in its 32-bit product; `stride` is a 32-bit value),
after the repaint loop, on every memory of the process, the byte at offset
`stride * y + 4 * x + k` from `fb->data` is `colour[k]` for every `x < width`,
`y < height`, `k < 4`, that offset lies inside the mapping, and every byte that
is not inside such a pixel keeps its previous value. -/
theorem paint_correct (colour : List Nat) (fb : dumb_framebuffer) (mem : Nat → Nat)
    (hs : fb.stride < 2 ^ 32) (hw : 4 * fb.width ≤ fb.stride)
    (hsize : fb.stride * fb.height ≤ fb.size)
    (hrow : fb.stride * (fb.height - 1) < 2 ^ 32) :
    (∀ x y k, x < fb.width → y < fb.height → k < 4 →
      paint colour fb mem (fb.data + (fb.stride * y + 4 * x + k)) = colour.getD k 0 ∧
      fb.stride * y + 4 * x + k < fb.size) ∧
    (∀ addr, (¬ ∃ x y k, x < fb.width ∧ y < fb.height ∧ k < 4 ∧
        addr = fb.data + (fb.stride * y + 4 * x + k)) →
      paint colour fb mem addr = mem addr) :=
  paint_spec colour fb mem hs hw hsize hrow

/-- Witness of C6 as the code has it: a 2 x 2 buffer with a pitch of 12 bytes. -/
theorem paint_correct_witness :
    exSmallFb.stride < 2 ^ 32 ∧ 4 * exSmallFb.width ≤ exSmallFb.stride ∧
    exSmallFb.stride * exSmallFb.height ≤ exSmallFb.size ∧
    exSmallFb.stride * (exSmallFb.height - 1) < 2 ^ 32 ∧
    paint [0, 15, 240, 0] exSmallFb exMem
      (exSmallFb.data + (exSmallFb.stride * 1 + 4 * 1 + 2)) = 240 ∧
    paint [0, 15, 240, 0] exSmallFb exMem (exSmallFb.data + 9) = exMem (exSmallFb.data + 9) :=
  ⟨by decide, by decide, by decide, by decide,
    ((paint_correct [0, 15, 240, 0] exSmallFb exMem (by decide) (by decide) (by decide)
      (by decide)).1 1 1 2 (by decide) (by decide) (by decide)).1,
    (paint_correct [0, 15, 240, 0] exSmallFb exMem (by decide) (by decide) (by decide)
      (by decide)).2 _ (by
        rintro ⟨x, y, k, hx, hy, hk, h⟩
        have hx' : x < 2 := hx
        have hy' : y < 2 := hy
        have h' : 16777216 + 9 = 16777216 + (12 * y + 4 * x + k) := h
        omega)⟩

/-- Counterexample to C6 as stated: a 1 x 3 buffer with a pitch of `2 ^ 31` bytes
and a mapping of `3 * 2 ^ 31` bytes has `stride ≥ 4 * width` and
`size ≥ stride * height`, but the product `stride * 2` wraps to 0 in `uint32_t`:
row 2 is painted over row 0, and the byte of pixel `(0, 2)` at offset
`stride * 2 + 4 * 0 + 1` keeps its old value `0xff` instead of `colour[1] = 15`. -/
theorem paint_wraps_row_offset :
    exWideFb.stride < 2 ^ 32 ∧ exWideFb.size < 2 ^ 64 ∧
    4 * exWideFb.width ≤ exWideFb.stride ∧
    exWideFb.stride * exWideFb.height ≤ exWideFb.size ∧
    0 < exWideFb.width ∧ 2 < exWideFb.height ∧
    paint [0, 15, 240, 0] exWideFb exMem
      (exWideFb.data + (exWideFb.stride * 2 + 4 * 0 + 1)) = 0xff ∧
    paint [0, 15, 240, 0] exWideFb exMem
      (exWideFb.data + (exWideFb.stride * 2 + 4 * 0 + 1)) ≠
      ([0, 15, 240, 0] : List Nat).getD 1 0 := by
  decide!

/-! Section: the front and back buffers, proofs. -/

/-- The handler exchanges `front` and `back`. -/
theorem page_flip_handler_swap (flip_ok : Bool) (k : Kernel) (conn : connector) :
    (page_flip_handler flip_ok k conn).1.front = conn.back ∧
    (page_flip_handler flip_ok k conn).1.back = conn.front :=
  ⟨rfl, rfl⟩

/-- Two different slot pointers are the two slots. -/
theorem slots_of_ne : ∀ p q : Fin 2, p ≠ q → ({p, q} : Finset (Fin 2)) = {0, 1} := by
  decide

/-- C4: for a connector with `front = &fb[0]` and `back = &fb[1]`, after every
finite sequence of completion events handled by `page_flip_handler`, whatever
the kernel answers to the flips, `front` and `back` are different slots and
together they are the two slots `fb[0]`, `fb[1]` of the connector. -/
theorem front_back_distinct (evs : List Bool) (k : Kernel) (conn : connector)
    (hf : conn.front = 0) (hb : conn.back = 1) :
    (handle_events evs k conn).1.front ≠ (handle_events evs k conn).1.back ∧
    ({(handle_events evs k conn).1.front, (handle_events evs k conn).1.back} :
      Finset (Fin 2)) = {0, 1} := by
  have inv : ∀ (evs : List Bool) (k : Kernel) (conn : connector),
      conn.front ≠ conn.back →
      (handle_events evs k conn).1.front ≠ (handle_events evs k conn).1.back := by
    intro evs
    induction evs with
    | nil => intro k conn h; exact h
    | cons e rest ih =>
      intro k conn h
      simp only [handle_events]
      apply ih
      rw [(page_flip_handler_swap e k conn).1, (page_flip_handler_swap e k conn).2]
      exact fun h' => h h'.symm
  have hne : conn.front ≠ conn.back := by
    rw [hf, hb]
    decide
  exact ⟨inv evs k conn hne, slots_of_ne _ _ (inv evs k conn hne)⟩

/-- Witness of C4: the example connector, three events, the second flip fails. -/
theorem front_back_distinct_witness :
    exOutput.front = 0 ∧ exOutput.back = 1 ∧
    (handle_events [true, false, true] exKernel exOutput).1.front ≠
      (handle_events [true, false, true] exKernel exOutput).1.back ∧
    ({(handle_events [true, false, true] exKernel exOutput).1.front,
      (handle_events [true, false, true] exKernel exOutput).1.back} :
      Finset (Fin 2)) = {0, 1} :=
  ⟨rfl, rfl, front_back_distinct [true, false, true] exKernel exOutput rfl rfl⟩

/-- C5 as the code has it: for a connector with `front ≠ back` whose back
buffer has a 32-bit `stride ≥ 4 * width` and a mapping of at least
`stride * height` bytes that does not overlap the mapping of the front buffer,
one run of `page_flip_handler` changes the memory of the process by the repaint
loop on the old `back` with the advanced colour; no byte outside the mapping of
the old `back` changes, in particular every byte of the mapping of the old
`front` keeps its value; the two buffer records are unchanged; the flip is
submitted for the connector's CRTC with the framebuffer id of the buffer just
repainted; and on exit `front` is the old `back` and `back` is the old
`front`. When, in addition, no row offset of the old `back` wraps
(`stride * (height - 1) < 2 ^ 32`), every pixel byte of the old `back` holds
the advanced colour. -/
theorem page_flip_handler_paints_back (flip_ok : Bool) (k : Kernel) (conn : connector)
    (_ : conn.front ≠ conn.back)
    (hs : (conn.fb conn.back).stride < 2 ^ 32)
    (hw : 4 * (conn.fb conn.back).width ≤ (conn.fb conn.back).stride)
    (hsize : (conn.fb conn.back).stride * (conn.fb conn.back).height ≤
      (conn.fb conn.back).size)
    (hdisj : (conn.fb conn.front).data + (conn.fb conn.front).size ≤
        (conn.fb conn.back).data ∨
      (conn.fb conn.back).data + (conn.fb conn.back).size ≤ (conn.fb conn.front).data) :
    (page_flip_handler flip_ok k conn).2.mem =
      paint (page_flip_handler flip_ok k conn).1.colour (conn.fb conn.back) k.mem ∧
    (∀ addr, ¬ ((conn.fb conn.back).data ≤ addr ∧
        addr < (conn.fb conn.back).data + (conn.fb conn.back).size) →
      (page_flip_handler flip_ok k conn).2.mem addr = k.mem addr) ∧
    (∀ addr, (conn.fb conn.front).data ≤ addr →
      addr < (conn.fb conn.front).data + (conn.fb conn.front).size →
      (page_flip_handler flip_ok k conn).2.mem addr = k.mem addr) ∧
    (page_flip_handler flip_ok k conn).1.fb = conn.fb ∧
    (page_flip_handler flip_ok k conn).2.log =
      k.log ++ Call.pageFlip (conn.crtc_id.getD 0) (conn.fb conn.back).id conn.id ::
        (if flip_ok then [] else [Call.perror "drmModePageFlip"]) ∧
    (page_flip_handler flip_ok k conn).1.front = conn.back ∧
    (page_flip_handler flip_ok k conn).1.back = conn.front ∧
    ((conn.fb conn.back).stride * ((conn.fb conn.back).height - 1) < 2 ^ 32 →
      ∀ x y c, x < (conn.fb conn.back).width → y < (conn.fb conn.back).height → c < 4 →
        (page_flip_handler flip_ok k conn).2.mem
          ((conn.fb conn.back).data + ((conn.fb conn.back).stride * y + 4 * x + c)) =
          (page_flip_handler flip_ok k conn).1.colour.getD c 0) := by
  have hmem : (page_flip_handler flip_ok k conn).2.mem =
      paint (page_flip_handler flip_ok k conn).1.colour (conn.fb conn.back) k.mem := by
    cases flip_ok <;> rfl
  have hout : ∀ addr, ¬ ((conn.fb conn.back).data ≤ addr ∧
        addr < (conn.fb conn.back).data + (conn.fb conn.back).size) →
      (page_flip_handler flip_ok k conn).2.mem addr = k.mem addr := by
    intro addr ha
    rw [hmem]
    exact paint_in_bounds _ _ _ hs hw hsize addr ha
  refine ⟨hmem, hout, ?_, rfl, ?_, rfl, rfl, ?_⟩
  · intro addr h1 h2
    apply hout
    omega
  · cases flip_ok <;> simp [page_flip_handler, Kernel.pageFlip, Kernel.perror]
  · intro hrow x y c hx hy hc
    rw [hmem]
    exact ((paint_spec _ _ _ hs hw hsize hrow).1 x y c hx hy hc).1

/-- Witness of C5 as the code has it: the example connector, whose two small
buffers are mapped apart, and a successful flip. -/
theorem page_flip_handler_paints_back_witness :
    exOutput.front ≠ exOutput.back ∧
    (exOutput.fb exOutput.back).stride < 2 ^ 32 ∧
    4 * (exOutput.fb exOutput.back).width ≤ (exOutput.fb exOutput.back).stride ∧
    (exOutput.fb exOutput.back).stride * (exOutput.fb exOutput.back).height ≤
      (exOutput.fb exOutput.back).size ∧
    (exOutput.fb exOutput.front).data + (exOutput.fb exOutput.front).size ≤
      (exOutput.fb exOutput.back).data ∧
    (page_flip_handler true exSmallKernel exOutput).2.mem 16777216 =
      exSmallKernel.mem 16777216 ∧
    (page_flip_handler true exSmallKernel exOutput).1.front = exOutput.back ∧
    (page_flip_handler true exSmallKernel exOutput).2.mem
      ((exOutput.fb exOutput.back).data +
        ((exOutput.fb exOutput.back).stride * 1 + 4 * 1 + 2)) =
      (page_flip_handler true exSmallKernel exOutput).1.colour.getD 2 0 :=
  ⟨by decide, by decide, by decide, by decide, by decide,
    (page_flip_handler_paints_back true exSmallKernel exOutput (by decide) (by decide)
      (by decide) (by decide) (Or.inl (by decide))).2.2.1 16777216 (by decide) (by decide),
    (page_flip_handler_paints_back true exSmallKernel exOutput (by decide) (by decide)
      (by decide) (by decide) (Or.inl (by decide))).2.2.2.2.2.1,
    (page_flip_handler_paints_back true exSmallKernel exOutput (by decide) (by decide)
      (by decide) (by decide) (Or.inl (by decide))).2.2.2.2.2.2.2 (by decide) 1 1 2
      (by decide) (by decide) (by decide)⟩

/-- Counterexample to C5 as stated: the connector `exTight` has `front ≠ back`,
but the mapping of its back buffer (2 x 2, pitch 8, at 1000) holds 8 bytes, one
row only, and the mapping of its front buffer starts at 1008. The repaint loop
stores row 1 at the addresses 1008 to 1015: the byte at 1009, which lies inside
the mapping of `front` and outside the mapping of `back`, changes from `0xff`
to `colour[1] = 15`. -/
theorem page_flip_handler_hits_front :
    exTight.front ≠ exTight.back ∧
    (exTight.fb exTight.front).data ≤ 1009 ∧
    1009 < (exTight.fb exTight.front).data + (exTight.fb exTight.front).size ∧
    ¬ ((exTight.fb exTight.back).data ≤ 1009 ∧
      1009 < (exTight.fb exTight.back).data + (exTight.fb exTight.back).size) ∧
    exTightKernel.mem 1009 = 0xff ∧
    (page_flip_handler true exTightKernel exTight).2.mem 1009 = 15 := by
  decide!

/-! Section: `create_fb` and the setup of one connector, proofs. -/

/-- The first three steps of `create_fb` roll back: when the dumb-buffer
creation, `drmModeAddFB2` or the map-offset query fails, `create_fb` returns
false and the live handles, framebuffer ids and mappings, the memory and the
state of the process are those before the call. -/
theorem create_fb_rollback (k : Kernel) (a : FbAnswers) (width height : Nat)
    (fb : dumb_framebuffer)
    (h : a.create = none ∨ a.addfb = none ∨ a.mapdumb = none) :
    (create_fb k a width height fb).1 = false ∧
    (create_fb k a width height fb).2.2.handles = k.handles ∧
    (create_fb k a width height fb).2.2.fbs = k.fbs ∧
    (create_fb k a width height fb).2.2.maps = k.maps ∧
    (create_fb k a width height fb).2.2.mem = k.mem ∧
    (create_fb k a width height fb).2.2.fault = k.fault := by
  unfold create_fb
  cases hc : a.create with
  | none => exact ⟨rfl, rfl, rfl, rfl, rfl, rfl⟩
  | some c =>
    obtain ⟨handle, pitch, size⟩ := c
    cases ha : a.addfb with
    | none =>
      simp [Kernel.destroyDumb, Kernel.perror]
    | some id =>
      cases hm : a.mapdumb with
      | none =>
        simp [Kernel.destroyDumb, Kernel.perror, Kernel.rmFB]
      | some off =>
        rcases h with h | h | h
        · rw [hc] at h; cases h
        · rw [ha] at h; cases h
        · rw [hm] at h; cases h

/-- A `memset` on a live mapping does not kill the process and makes no call. -/
theorem memset_of_mem (k : Kernel) (p v n : Nat) (h : p ∈ k.maps) :
    (k.memset p v n).fault = k.fault ∧ (k.memset p v n).log = k.log ∧
    (k.memset p v n).handles = k.handles ∧ (k.memset p v n).fbs = k.fbs ∧
    (k.memset p v n).maps = k.maps := by
  unfold Kernel.memset
  split_ifs <;> exact ⟨rfl, rfl, rfl, rfl, rfl⟩

/-- A `create_fb` whose four calls succeed in a live process: the result is
true, the record holds the answers of the kernel, the process lives on, no call
other than the four is made, and the handle, the framebuffer id and the mapping
are live. -/
theorem create_fb_ok (k : Kernel) (a : FbAnswers) (width height : Nat)
    (fb : dumb_framebuffer) (c : Nat × Nat × Nat) (id off p : Nat)
    (hc : a.create = some c) (ha : a.addfb = some id) (hm : a.mapdumb = some off)
    (hp : a.mmap = some p) (hp0 : p ≠ 0) :
    (create_fb k a width height fb).1 = true ∧
    (create_fb k a width height fb).2.1 = ⟨id, width, height, c.2.1, c.1, c.2.2, p⟩ ∧
    (create_fb k a width height fb).2.2.fault = k.fault ∧
    (create_fb k a width height fb).2.2.log = k.log ∧
    (create_fb k a width height fb).2.2.handles = c.1 :: k.handles ∧
    (create_fb k a width height fb).2.2.fbs = id :: k.fbs ∧
    (create_fb k a width height fb).2.2.maps = p :: k.maps := by
  obtain ⟨handle, pitch, size⟩ := c
  have h := memset_of_mem ⟨handle :: k.handles, id :: k.fbs, p :: k.maps, k.log, k.fault, k.mem⟩
    p 0xff size (List.mem_cons_self _ _)
  unfold create_fb
  simp only [hc, ha, hm, mmap_result, Kernel.mmap, hp]
  rw [if_neg hp0]
  exact ⟨rfl, rfl, h.1, h.2.1, h.2.2.1, h.2.2.2.1, h.2.2.2.2⟩

/-- A `create_fb` whose `mmap` does not fail does not kill the process. -/
theorem create_fb_fault (k : Kernel) (a : FbAnswers) (width height : Nat)
    (fb : dumb_framebuffer) (p : Nat) (hp : a.mmap = some p) :
    (create_fb k a width height fb).2.2.fault = k.fault := by
  unfold create_fb
  cases a.create with
  | none => rfl
  | some c =>
    obtain ⟨handle, pitch, size⟩ := c
    cases a.addfb with
    | none => rfl
    | some id =>
      cases a.mapdumb with
      | none => rfl
      | some off =>
        simp only [mmap_result, Kernel.mmap, hp]
        split_ifs
        · rfl
        · exact (memset_of_mem _ p 0xff size (List.mem_cons_self _ _)).1

/-- C7, the failing step: when the first three calls succeed and `mmap` fails,
`mmap` returns `MAP_FAILED`, which is not the null pointer that line 126 tests
for. The error branch is not taken: `create_fb` stores `MAP_FAILED` in
`fb->data` and runs `memset` on it, which kills the process (`fault`; the
result `true` of the model is never seen by a caller), and neither unregisters
the framebuffer 9 nor destroys the dumb buffer 5. -/
theorem create_fb_mmap_failure_undetected :
    exFbNoMap.mmap = none ∧
    (create_fb exKernel exFbNoMap 1920 1080 exBlankFb).1 = true ∧
    (create_fb exKernel exFbNoMap 1920 1080 exBlankFb).2.1.data = MAP_FAILED ∧
    (create_fb exKernel exFbNoMap 1920 1080 exBlankFb).2.2.handles = [5] ∧
    (create_fb exKernel exFbNoMap 1920 1080 exBlankFb).2.2.fbs = [9] ∧
    (create_fb exKernel exFbNoMap 1920 1080 exBlankFb).2.2.fault = true ∧
    (create_fb exKernel exFbNoMap 1920 1080 exBlankFb).2.2.log = [] := by
  decide!

/-- The page flips in the log after a call that is no page flip. -/
theorem flips_append_single (l : List Call) (c : Call) (h : c.isPageFlip = false) :
    (l ++ [c]).filter Call.isPageFlip = l.filter Call.isPageFlip := by
  rw [List.filter_append, List.filter_cons_of_neg (by simp [h]), List.filter_nil,
    List.append_nil]

/-- A `perror` is no page flip. -/
@[simp]
theorem flips_perror (k : Kernel) (msg : String) :
    (k.perror msg).log.filter Call.isPageFlip = k.log.filter Call.isPageFlip :=
  flips_append_single _ _ rfl

/-- A `drmModeRmFB` is no page flip. -/
@[simp]
theorem flips_rmFB (k : Kernel) (id : Nat) :
    (k.rmFB id).log.filter Call.isPageFlip = k.log.filter Call.isPageFlip :=
  flips_append_single _ _ rfl

/-- A destroy ioctl is no page flip. -/
@[simp]
theorem flips_destroyDumb (k : Kernel) (h : Nat) :
    (k.destroyDumb h).log.filter Call.isPageFlip = k.log.filter Call.isPageFlip :=
  flips_append_single _ _ rfl

/-- A `munmap` is no page flip. -/
@[simp]
theorem flips_munmap (k : Kernel) (p : Nat) :
    (k.munmap p).log.filter Call.isPageFlip = k.log.filter Call.isPageFlip :=
  flips_append_single _ _ rfl

/-- A `drmModeSetCrtc` is no page flip. -/
@[simp]
theorem flips_setCrtc (k : Kernel) (c f i : Nat) :
    (k.setCrtc c f i).log.filter Call.isPageFlip = k.log.filter Call.isPageFlip :=
  flips_append_single _ _ rfl

/-- An `mmap` leaves the log alone. -/
@[simp]
theorem flips_mmap (k : Kernel) (a : FbAnswers) :
    (k.mmap a).log = k.log := by
  unfold Kernel.mmap
  cases a.mmap <;> rfl

/-- A `memset` leaves the log alone. -/
@[simp]
theorem flips_memset (k : Kernel) (p v n : Nat) :
    (k.memset p v n).log = k.log := by
  unfold Kernel.memset
  split_ifs <;> rfl

/-- Function `create_fb` submits no page flip. -/
theorem flips_create_fb (k : Kernel) (a : FbAnswers) (width height : Nat)
    (fb : dumb_framebuffer) :
    (create_fb k a width height fb).2.2.log.filter Call.isPageFlip =
      k.log.filter Call.isPageFlip := by
  unfold create_fb
  cases a.create with
  | none => simp
  | some c =>
    obtain ⟨handle, pitch, size⟩ := c
    cases a.addfb with
    | none => simp
    | some id =>
      cases a.mapdumb with
      | none => simp
      | some off =>
        simp only []
        split_ifs <;> simp

/-- Function `destroy_fb` submits no page flip and does not kill the process. -/
theorem flips_destroy_fb (k : Kernel) (fb : dumb_framebuffer) :
    (destroy_fb k fb).log.filter Call.isPageFlip = k.log.filter Call.isPageFlip ∧
    (destroy_fb k fb).fault = k.fault := by
  simp [destroy_fb]
  rfl

/-- What `destroy_fb` does: unmap, unregister, destroy, in this order. -/
theorem destroy_fb_effect (k : Kernel) (fb : dumb_framebuffer) :
    (destroy_fb k fb).log =
      k.log ++ [Call.munmap fb.data, Call.rmFB fb.id, Call.destroyDumb fb.handle] ∧
    (destroy_fb k fb).maps = k.maps.erase fb.data ∧
    (destroy_fb k fb).fbs = k.fbs.erase fb.id ∧
    (destroy_fb k fb).handles = k.handles.erase fb.handle := by
  simp [destroy_fb, Kernel.destroyDumb, Kernel.rmFB, Kernel.munmap]

/-- The second half of the loop body when one of the first three calls of a
`create_fb` fails in a live process. -/
theorem start_output_fb_failure (env : Env) (a : ConnAnswers) (crtc_id : Nat)
    (mode0 : drmModeModeInfo) (conn : connector) (k : Kernel)
    (hlive : k.fault = false)
    (h : (a.fb0.create = none ∨ a.fb0.addfb = none ∨ a.fb0.mapdumb = none) ∨
      ((∃ p, a.fb0.mmap = some p) ∧
        (a.fb1.create = none ∨ a.fb1.addfb = none ∨ a.fb1.mapdumb = none))) :
    (start_output env a crtc_id mode0 conn k).1.connected = false ∧
    (start_output env a crtc_id mode0 conn k).2.log.filter Call.isPageFlip =
      k.log.filter Call.isPageFlip ∧
    (start_output env a crtc_id mode0 conn k).2.fault = false := by
  have f0 : ∀ w h fb, (create_fb k a.fb0 w h fb).2.2.fault = false := by
    intro w h' fb
    rcases h with h | ⟨⟨p, hp⟩, _⟩
    · rw [(create_fb_rollback k a.fb0 w h' fb h).2.2.2.2.2, hlive]
    · rw [create_fb_fault k a.fb0 w h' fb p hp, hlive]
  unfold start_output
  simp only []
  rw [if_neg (by rw [f0]; decide)]
  split_ifs with h0 g1 h1
  · exact ⟨rfl, flips_create_fb _ _ _ _ _, f0 _ _ _⟩
  · rcases h with h | ⟨_, h⟩
    · exact absurd (create_fb_rollback _ _ _ _ _ h).1 h0
    · rw [(create_fb_rollback _ a.fb1 _ _ _ h).2.2.2.2.2, f0] at g1
      cases g1
  · rcases h with h | ⟨_, h⟩
    · exact absurd (create_fb_rollback _ _ _ _ _ h).1 h0
    · refine ⟨rfl, ?_, ?_⟩
      · rw [(flips_destroy_fb _ _).1, flips_create_fb, flips_create_fb]
      · rw [(flips_destroy_fb _ _).2, (create_fb_rollback _ a.fb1 _ _ _ h).2.2.2.2.2, f0]
  · rcases h with h | ⟨_, h⟩
    · exact absurd (create_fb_rollback _ _ _ _ _ h).1 h0
    · exact absurd (create_fb_rollback _ _ _ _ _ h).1 h1
  · rcases h with h | ⟨_, h⟩
    · exact absurd (create_fb_rollback _ _ _ _ _ h).1 h0
    · exact absurd (create_fb_rollback _ _ _ _ _ h).1 h1

/-- The second half of the loop body in a live process when all four calls of
both `create_fb` succeed: the record holds the two buffers, `front = &fb[0]`,
`back = &fb[1]`, the initial animation state and the saved configuration, and
`connected` is untouched; a page flip is submitted exactly when the mode-set is
accepted. -/
theorem start_output_allocated (env : Env) (a : ConnAnswers) (crtc_id : Nat)
    (mode0 : drmModeModeInfo) (conn : connector) (k : Kernel)
    (hlive : k.fault = false)
    (c0 : Nat × Nat × Nat) (i0 o0 p0 : Nat) (c1 : Nat × Nat × Nat) (i1 o1 p1 : Nat)
    (hc0 : a.fb0.create = some c0) (ha0 : a.fb0.addfb = some i0)
    (hm0 : a.fb0.mapdumb = some o0) (hp0 : a.fb0.mmap = some p0) (hn0 : p0 ≠ 0)
    (hc1 : a.fb1.create = some c1) (ha1 : a.fb1.addfb = some i1)
    (hm1 : a.fb1.mapdumb = some o1) (hp1 : a.fb1.mmap = some p1) (hn1 : p1 ≠ 0) :
    (start_output env a crtc_id mode0 conn k).1.connected = conn.connected ∧
    (start_output env a crtc_id mode0 conn k).1.id = conn.id ∧
    (start_output env a crtc_id mode0 conn k).1.saved = a.saved ∧
    (start_output env a crtc_id mode0 conn k).1.fb 0 =
      ⟨i0, mode0.hdisplay, mode0.vdisplay, c0.2.1, c0.1, c0.2.2, p0⟩ ∧
    (start_output env a crtc_id mode0 conn k).1.fb 1 =
      ⟨i1, mode0.hdisplay, mode0.vdisplay, c1.2.1, c1.1, c1.2.2, p1⟩ ∧
    (start_output env a crtc_id mode0 conn k).1.front = 0 ∧
    (start_output env a crtc_id mode0 conn k).1.back = 1 ∧
    anim_of (start_output env a crtc_id mode0 conn k).1 = anim_init ∧
    (start_output env a crtc_id mode0 conn k).2.fault = false ∧
    (start_output env a crtc_id mode0 conn k).2.log.filter Call.isPageFlip =
      k.log.filter Call.isPageFlip ++
        (if a.setcrtc_ok = false then [] else [Call.pageFlip crtc_id i0 conn.id]) := by
  have e0 := fun w h fb => create_fb_ok k a.fb0 w h fb c0 i0 o0 p0 hc0 ha0 hm0 hp0 hn0
  have e1 := fun k w h fb => create_fb_ok k a.fb1 w h fb c1 i1 o1 p1 hc1 ha1 hm1 hp1 hn1
  have hfb0 : ∀ (f : Fin 2 → dumb_framebuffer) (x y : dumb_framebuffer),
      set_fb (set_fb f 0 x) 1 y 0 = x := by
    intro f x y
    simp [set_fb]
  have hfb1 : ∀ (f : Fin 2 → dumb_framebuffer) (y : dumb_framebuffer),
      set_fb f 1 y 1 = y := by
    intro f y
    simp [set_fb]
  unfold start_output
  simp only []
  rw [if_neg (by rw [(e0 _ _ _).2.2.1, hlive]; decide),
    if_neg (by rw [(e0 _ _ _).1]; decide),
    if_neg (by rw [(e1 _ _ _ _).2.2.1, (e0 _ _ _).2.2.1, hlive]; decide),
    if_neg (by rw [(e1 _ _ _ _).1]; decide)]
  split_ifs with hs
  · refine ⟨rfl, rfl, rfl, ?_, ?_, rfl, rfl, rfl, ?_, ?_⟩
    · simp [set_fb, (e0 _ _ _).2.1]
    · simp [set_fb, (e1 _ _ _ _).2.1]
    · exact ((e1 _ _ _ _).2.2.1.trans (e0 _ _ _).2.2.1).trans hlive
    · rw [flips_perror, flips_setCrtc, (e1 _ _ _ _).2.2.2.1, (e0 _ _ _).2.2.2.1,
        List.append_nil]
  · refine ⟨rfl, rfl, rfl, ?_, ?_, rfl, rfl, rfl, ?_, ?_⟩
    · simp [set_fb, (e0 _ _ _).2.1]
    · simp [set_fb, (e1 _ _ _ _).2.1]
    · have : (create_fb (create_fb k a.fb0 mode0.hdisplay mode0.vdisplay (conn.fb 0)).2.2
          a.fb1 mode0.hdisplay mode0.vdisplay
          (set_fb conn.fb 0
            (create_fb k a.fb0 mode0.hdisplay mode0.vdisplay (conn.fb 0)).2.1 1)).2.2.fault
          = false := by
        rw [(e1 _ _ _ _).2.2.1, (e0 _ _ _).2.2.1, hlive]
      cases a.flip_ok <;> simpa [Kernel.pageFlip, Kernel.perror, Kernel.setCrtc] using this
    · have hl : (create_fb (create_fb k a.fb0 mode0.hdisplay mode0.vdisplay (conn.fb 0)).2.2
          a.fb1 mode0.hdisplay mode0.vdisplay
          (set_fb conn.fb 0
            (create_fb k a.fb0 mode0.hdisplay mode0.vdisplay (conn.fb 0)).2.1 1)).2.2.log
          = k.log := by
        rw [(e1 _ _ _ _).2.2.2.1, (e0 _ _ _).2.2.2.1]
      have hid : (set_fb (set_fb conn.fb 0
          (create_fb k a.fb0 mode0.hdisplay mode0.vdisplay (conn.fb 0)).2.1) 1
          (create_fb (create_fb k a.fb0 mode0.hdisplay mode0.vdisplay (conn.fb 0)).2.2
            a.fb1 mode0.hdisplay mode0.vdisplay
            (set_fb conn.fb 0
              (create_fb k a.fb0 mode0.hdisplay mode0.vdisplay (conn.fb 0)).2.1 1)).2.1 0).id
          = i0 := by
        rw [hfb0, (e0 _ _ _).2.1]
      cases a.flip_ok <;>
        simp [Kernel.pageFlip, Kernel.perror, Kernel.setCrtc, List.filter_append,
          Call.isPageFlip, hl, hid]

/-- C8 as the code has it, for the body of the setup loop in a live process and
a connector whose record is created. First half: if the connector is
disconnected, has no mode, `find_crtc` returns 0, or the dumb-buffer creation,
the `drmModeAddFB2` registration or the map-offset query fails for the first
buffer, or for the second buffer when the `mmap` of the first did not fail,
then the record ends setup with `connected = false`, the process is alive, no
page flip is submitted during its setup, and the teardown loop body does
nothing for it. Second half: if instead the connector is connected, has a mode
and a CRTC, all four calls of both `create_fb` succeed and the initial
`drmModeSetCrtc` is rejected, then no page flip is submitted either, but the
record keeps `connected = true`, and the teardown loop body unmaps, unregisters
and destroys the first and then the second buffer and recommits the saved
configuration when there is one. A failed `mmap` is in neither half. -/
theorem setup_failure_inactive (env : Env) (res : drmModeRes) (a : ConnAnswers)
    (taken : Nat) (k : Kernel) (d : drmModeConnector)
    (hd : a.drm_conn = some d) (hm : a.malloc_ok = true) (hlive : k.fault = false) :
    ((d.connection = false ∨ d.modes = [] ∨
        (find_crtc env res d.encoders taken).1 = 0 ∨
        (a.fb0.create = none ∨ a.fb0.addfb = none ∨ a.fb0.mapdumb = none) ∨
        ((∃ p, a.fb0.mmap = some p) ∧
          (a.fb1.create = none ∨ a.fb1.addfb = none ∨ a.fb1.mapdumb = none))) →
      ∃ conn, (setup_connector env res a taken k).1 = some conn ∧
        conn.connected = false ∧
        (setup_connector env res a taken k).2.2.fault = false ∧
        (setup_connector env res a taken k).2.2.log.filter Call.isPageFlip =
          k.log.filter Call.isPageFlip ∧
        ∀ k', teardown_connector k' conn = k') ∧
    (∀ (c0 : Nat × Nat × Nat) (i0 o0 p0 : Nat) (c1 : Nat × Nat × Nat) (i1 o1 p1 : Nat),
      d.connection = true → d.modes ≠ [] →
      (find_crtc env res d.encoders taken).1 ≠ 0 →
      a.fb0.create = some c0 → a.fb0.addfb = some i0 → a.fb0.mapdumb = some o0 →
      a.fb0.mmap = some p0 → p0 ≠ 0 →
      a.fb1.create = some c1 → a.fb1.addfb = some i1 → a.fb1.mapdumb = some o1 →
      a.fb1.mmap = some p1 → p1 ≠ 0 →
      a.setcrtc_ok = false →
      ∃ conn, (setup_connector env res a taken k).1 = some conn ∧
        conn.connected = true ∧
        (setup_connector env res a taken k).2.2.fault = false ∧
        (setup_connector env res a taken k).2.2.log.filter Call.isPageFlip =
          k.log.filter Call.isPageFlip ∧
        ∀ k', (teardown_connector k' conn).log =
            k'.log ++ [Call.munmap p0, Call.rmFB i0, Call.destroyDumb c0.1,
              Call.munmap p1, Call.rmFB i1, Call.destroyDumb c1.1] ++
              (a.saved.map (fun crtc =>
                Call.setCrtc crtc.crtc_id crtc.buffer_id d.connector_id)).toList ∧
          (teardown_connector k' conn).maps = (k'.maps.erase p0).erase p1 ∧
          (teardown_connector k' conn).fbs = (k'.fbs.erase i0).erase i1 ∧
          (teardown_connector k' conn).handles = (k'.handles.erase c0.1).erase c1.1) := by
  have hm' : ¬ a.malloc_ok = false := by rw [hm]; decide
  have off : ∀ conn : connector, conn.connected = false →
      ∀ k', teardown_connector k' conn = k' := by
    intro conn hc k'
    unfold teardown_connector
    rw [if_neg (by rw [hc]; decide)]
  constructor
  · intro hfail
    unfold setup_connector
    rw [hd]
    simp only []
    rw [if_neg hm']
    by_cases hc : d.connection = false
    · rw [if_pos hc]
      exact ⟨_, rfl, hc, hlive, rfl, off _ hc⟩
    · rw [if_neg hc]
      cases hmo : d.modes with
      | nil => exact ⟨_, rfl, rfl, hlive, rfl, off _ rfl⟩
      | cons m0 ms =>
        simp only []
        by_cases hz : (find_crtc env res d.encoders taken).1 = 0
        · rw [if_pos hz]
          exact ⟨_, rfl, rfl, hlive, rfl, off _ rfl⟩
        · rw [if_neg hz]
          have hfb : (a.fb0.create = none ∨ a.fb0.addfb = none ∨ a.fb0.mapdumb = none) ∨
              ((∃ p, a.fb0.mmap = some p) ∧
                (a.fb1.create = none ∨ a.fb1.addfb = none ∨ a.fb1.mapdumb = none)) := by
            rcases hfail with h | h | h | h | h
            · exact absurd h hc
            · rw [hmo] at h; cases h
            · exact absurd h hz
            · exact Or.inl h
            · exact Or.inr h
          have := start_output_fb_failure env a (find_crtc env res d.encoders taken).1 m0
            { malloc_connector with
              id := d.connector_id, connected := d.connection,
              crtc_id := some (find_crtc env res d.encoders taken).1 } k hlive hfb
          exact ⟨_, rfl, this.1, this.2.2, this.2.1, off _ this.1⟩
  · intro c0 i0 o0 p0 c1 i1 o1 p1 hc hmo hz hc0 ha0 hm0 hp0 hn0 hc1 ha1 hm1 hp1 hn1 hs
    unfold setup_connector
    rw [hd]
    simp only []
    rw [if_neg hm', if_neg (by rw [hc]; decide)]
    cases hmo' : d.modes with
    | nil => exact absurd hmo' hmo
    | cons m0 ms =>
      simp only []
      rw [if_neg hz]
      obtain ⟨t1, t2, t3, t4, t5, _, _, _, t9, t10⟩ :=
        start_output_allocated env a (find_crtc env res d.encoders taken).1 m0
          { malloc_connector with
            id := d.connector_id, connected := d.connection,
            crtc_id := some (find_crtc env res d.encoders taken).1 } k hlive
          c0 i0 o0 p0 c1 i1 o1 p1 hc0 ha0 hm0 hp0 hn0 hc1 ha1 hm1 hp1 hn1
      rw [if_pos hs, List.append_nil] at t10
      refine ⟨_, rfl, t1.trans hc, t9, t10, ?_⟩
      intro k'
      unfold teardown_connector
      rw [if_pos (t1.trans hc)]
      simp only []
      rw [t3, t4, t5, t2]
      have e1 := destroy_fb_effect k' ⟨i0, m0.hdisplay, m0.vdisplay, c0.2.1, c0.1, c0.2.2, p0⟩
      have e2 := destroy_fb_effect
        (destroy_fb k' ⟨i0, m0.hdisplay, m0.vdisplay, c0.2.1, c0.1, c0.2.2, p0⟩)
        ⟨i1, m0.hdisplay, m0.vdisplay, c1.2.1, c1.1, c1.2.2, p1⟩
      cases a.saved with
      | none =>
        simp only [Option.map_none', Option.toList_none, List.append_nil]
        refine ⟨?_, ?_, ?_, ?_⟩
        · rw [e2.1, e1.1]; simp
        · rw [e2.2.1, e1.2.1]
        · rw [e2.2.2.1, e1.2.2.1]
        · rw [e2.2.2.2, e1.2.2.2]
      | some crtc =>
        simp only [Option.map_some', Option.toList_some, Kernel.setCrtc]
        refine ⟨?_, ?_, ?_, ?_⟩
        · rw [e2.1, e1.1]; simp
        · rw [e2.2.1, e1.2.1]
        · rw [e2.2.2.1, e1.2.2.1]
        · rw [e2.2.2.2, e1.2.2.2]

/-- Witness of C8 as the code has it: connector 7 whose second buffer cannot be
registered, and connector 7 whose initial mode-set is rejected. -/
theorem setup_failure_inactive_witness :
    exConnNoFb1.drm_conn = some ⟨7, true, [⟨1920, 1080⟩], [1]⟩ ∧
    exConnNoFb1.malloc_ok = true ∧ exKernel.fault = false ∧
    (∃ conn, (setup_connector exEnv exRes exConnNoFb1 0 exKernel).1 = some conn ∧
        conn.connected = false ∧
        (setup_connector exEnv exRes exConnNoFb1 0 exKernel).2.2.fault = false ∧
        (setup_connector exEnv exRes exConnNoFb1 0 exKernel).2.2.log.filter Call.isPageFlip =
          exKernel.log.filter Call.isPageFlip ∧
        ∀ k', teardown_connector k' conn = k') ∧
    (∃ conn, (setup_connector exEnv exRes exConnNoModeset 0 exKernel).1 = some conn ∧
        conn.connected = true ∧
        (setup_connector exEnv exRes exConnNoModeset 0 exKernel).2.2.fault = false ∧
        (setup_connector exEnv exRes exConnNoModeset 0 exKernel).2.2.log.filter
          Call.isPageFlip = exKernel.log.filter Call.isPageFlip ∧
        ∀ k', (teardown_connector k' conn).log =
            k'.log ++ [Call.munmap 16777216, Call.rmFB 9, Call.destroyDumb 5,
              Call.munmap 33554432, Call.rmFB 10, Call.destroyDumb 6] ++
              [Call.setCrtc 41 3 7] ∧
          (teardown_connector k' conn).maps = (k'.maps.erase 16777216).erase 33554432 ∧
          (teardown_connector k' conn).fbs = (k'.fbs.erase 9).erase 10 ∧
          (teardown_connector k' conn).handles = (k'.handles.erase 5).erase 6) :=
  ⟨rfl, rfl, rfl,
   (setup_failure_inactive exEnv exRes exConnNoFb1 0 exKernel
      ⟨7, true, [⟨1920, 1080⟩], [1]⟩ rfl rfl rfl).1
      (Or.inr (Or.inr (Or.inr (Or.inr ⟨⟨16777216, rfl⟩, Or.inr (Or.inl rfl)⟩)))),
   (setup_failure_inactive exEnv exRes exConnNoModeset 0 exKernel
      ⟨7, true, [⟨1920, 1080⟩], [1]⟩ rfl rfl rfl).2
      (5, 7680, 8294400) 9 4096 16777216 (6, 7680, 8294400) 10 8192 33554432
      rfl (by decide) (by decide!) rfl rfl rfl rfl (by decide) rfl rfl rfl rfl (by decide)
      rfl⟩

/-- Counterexample to C8 as stated: connector 7 is connected, has a mode, gets
CRTC 41 and two buffers, and the kernel rejects the initial `drmModeSetCrtc`.
The record ends setup with `connected = true`, and the teardown loop body
destroys both buffers and recommits the saved configuration. -/
theorem modeset_failure_stays_connected :
    exConnNoModeset.setcrtc_ok = false ∧
    (setup_connector exEnv exRes exConnNoModeset 0 exKernel).2.2.log =
      [Call.setCrtc 41 9 7, Call.perror "drmModeSetCrtc"] ∧
    (setup_connector exEnv exRes exConnNoModeset 0 exKernel).1.map
      (fun c => (c.connected,
        (teardown_connector (setup_connector exEnv exRes exConnNoModeset 0 exKernel).2.2 c).log))
      = some (true, [Call.setCrtc 41 9 7, Call.perror "drmModeSetCrtc",
        Call.munmap 16777216, Call.rmFB 9, Call.destroyDumb 5,
        Call.munmap 33554432, Call.rmFB 10, Call.destroyDumb 6, Call.setCrtc 41 3 7]) := by
  decide!

end DrmDoc
